import Mathlib

set_option maxHeartbeats 1000000
set_option maxRecDepth 4000

/-!
Verification development for the benchmark-result analysis scripts of the
repository: `examples/scripts/analyze_benchmarks.py`,
`validation_results/analyze_results.py` and `examples/scripts/parse_baseline.py`.

Python floats are modelled as rationals (`ℚ`); nonfinite float literals
(`inf`, `nan`) are outside the scope of the model.  A CSV row produced by
`csv.DictReader` is an association list from header names to cell values,
where a cell value of `none` models Python `None` (a short row).  Python
exceptions are modelled with the `Except` monad.
-/

/-- The Python exceptions the analysis scripts can raise. -/
inductive PyErr where
  | keyError
  | valueError
  | typeError
  | attributeError
  | zeroDivisionError
  | indexError
deriving DecidableEq

/-- A `csv.DictReader` row: header name to cell value (`none` = Python `None`). -/
abbrev Row := List (String × Option String)

/-- Dictionary lookup on a row (Python `row[k]` / `row.get(k)` resolution). -/
def rlookup : Row → String → Option (Option String)
  | [], _ => none
  | (k, v) :: rest, key => if k = key then some v else rlookup rest key

/-- Consume an optional leading sign; `true` means negative. -/
def parseSign : List Char → Bool × List Char
  | '-' :: rest => (true, rest)
  | '+' :: rest => (false, rest)
  | cs => (false, cs)

/-- Split off a maximal run of decimal digits. -/
def spanDigits (cs : List Char) : List Char × List Char :=
  (cs.takeWhile Char.isDigit, cs.dropWhile Char.isDigit)

/-- Numeric value of a digit run. -/
def digitsVal (ds : List Char) : ℕ :=
  ds.foldl (fun a c => 10 * a + (c.toNat - '0'.toNat)) 0

/-- Exponent part of a float literal: `e`/`E`, optional sign, digits. -/
def parseExp (cs : List Char) : Option (Bool × List Char × List Char) :=
  match cs with
  | 'e' :: rest =>
      let (en, rest) := parseSign rest
      let (ds, rest) := spanDigits rest
      some (en, ds, rest)
  | 'E' :: rest =>
      let (en, rest) := parseSign rest
      let (ds, rest) := spanDigits rest
      some (en, ds, rest)
  | _ => none

/-- Python `float(s)` for finite decimal literals: optional sign, digits with
an optional decimal point, optional exponent; surrounding whitespace stripped.
Returns `none` where Python raises `ValueError`.  (Nonfinite literals such as
`inf`/`nan` are not representable in `ℚ` and are outside the model.) -/
def pyFloat? (s : String) : Option ℚ :=
  let cs := s.trim.toList
  let (neg, cs) := parseSign cs
  let (ip, cs) := spanDigits cs
  let (fp, cs) :=
    match cs with
    | '.' :: rest => spanDigits rest
    | _ => ([], cs)
  if ip = [] ∧ fp = [] then none
  else
    let mant : ℚ := (digitsVal ip : ℚ) + (digitsVal fp : ℚ) / ((10 : ℚ) ^ fp.length)
    match parseExp cs with
    | some (en, ds, rest) =>
        if ds = [] ∨ rest ≠ [] then none
        else
          let e : ℤ := if en then -(digitsVal ds : ℤ) else (digitsVal ds : ℤ)
          let v := mant * (10 : ℚ) ^ e
          some (if neg then -v else v)
    | none =>
        if cs ≠ [] then none
        else some (if neg then -mant else mant)

/-- Python `int(s)`: optional sign and a nonempty digit run, whitespace
stripped.  Returns `none` where Python raises `ValueError`. -/
def pyInt? (s : String) : Option ℤ :=
  let cs := s.trim.toList
  let (neg, cs) := parseSign cs
  let (ds, rest) := spanDigits cs
  if ds = [] ∨ rest ≠ [] then none
  else some (if neg then -(digitsVal ds : ℤ) else (digitsVal ds : ℤ))

/-- `safe_float` from `analyze_benchmarks.py`: `float(val)` with `ValueError`
and `TypeError` (the `None` case) converted to the default `0.0`. -/
def safe_float : Option String → ℚ
  | none => 0
  | some s => (pyFloat? s).getD 0

/-- Python `row[k]`: raises `KeyError` when the column is absent. -/
def getRaw (r : Row) (k : String) : Except PyErr (Option String) :=
  match rlookup r k with
  | none => .error .keyError
  | some v => .ok v

/-- `row.get('converged', '')` followed by `.lower()`: a `None` cell would
raise `AttributeError` in Python. -/
def getConvStr (r : Row) : Except PyErr String :=
  match rlookup r "converged" with
  | none => .ok ""
  | some none => .error .attributeError
  | some (some s) => .ok s

/-- `row.get('converged', '').lower() == 'true'` from `analyze_benchmarks.py`. -/
def getConverged (r : Row) : Except PyErr Bool := do
  pure ((← getConvStr r).toLower == "true")

/-- `row['converged'].lower() == 'true'` from `analyze_results.py`
(`KeyError` on a missing column, `AttributeError` on a `None` cell). -/
def loadConverged (r : Row) : Except PyErr Bool :=
  match rlookup r "converged" with
  | none => .error .keyError
  | some none => .error .attributeError
  | some (some s) => .ok (s.toLower == "true")

/-- `safe_float(row.get(k, 0))`: a missing column defaults to `0` (and
`float(0) = 0.0`); otherwise the cell goes through `safe_float`. -/
def getFloatD (r : Row) (k : String) : ℚ :=
  match rlookup r k with
  | none => 0
  | some v => safe_float v

/-- `safe_float(row[k])`: `KeyError` on a missing column, otherwise safe. -/
def getFloatIdx (r : Row) (k : String) : Except PyErr ℚ := do
  pure (safe_float (← getRaw r k))

/-- Python `float(val)` as used by `load_results`: `TypeError` on `None`,
`ValueError` on an unparsable string. -/
def pyFloatCast : Option String → Except PyErr ℚ
  | none => .error .typeError
  | some s =>
      match pyFloat? s with
      | none => .error .valueError
      | some q => .ok q

/-- `float(row[k])` (strict): used by `load_results`. -/
def getFloatStrict (r : Row) (k : String) : Except PyErr ℚ := do
  pyFloatCast (← getRaw r k)

/-- Python `int(val)`: `TypeError` on `None`, `ValueError` on an unparsable
string. -/
def pyIntCast : Option String → Except PyErr ℤ
  | none => .error .typeError
  | some s =>
      match pyInt? s with
      | none => .error .valueError
      | some z => .ok z

/-- `int(row[k])` (strict). -/
def getIntStrict (r : Row) (k : String) : Except PyErr ℤ := do
  pyIntCast (← getRaw r k)

/-- Python `/` on numbers: `ZeroDivisionError` on a zero denominator. -/
def pyDiv (a b : ℚ) : Except PyErr ℚ :=
  if b = 0 then .error .zeroDivisionError else .ok (a / b)

/-- Python list indexing with a nonnegative index: `IndexError` out of range. -/
def pyIndexNat (l : List ℚ) (i : ℕ) : Except PyErr ℚ :=
  match l.get? i with
  | some x => .ok x
  | none => .error .indexError

/-- Python list indexing with a possibly negative index (`l[-1]` is the last
element). -/
def pyIndexInt (l : List ℚ) (i : ℤ) : Except PyErr ℚ :=
  let j : ℤ := if i < 0 then i + l.length else i
  if 0 ≤ j then pyIndexNat l j.toNat else .error .indexError

/-- Effectful `map` over a list, stopping at the first exception (a Python
list comprehension over an expression that may raise). -/
def mapE (f : α → Except PyErr β) : List α → Except PyErr (List β)
  | [] => .ok []
  | x :: xs => do
      let y ← f x
      let rest ← mapE f xs
      pure (y :: rest)

/-- Effectful `filter` (a Python list comprehension with a condition that may
raise). -/
def filterE (p : α → Except PyErr Bool) : List α → Except PyErr (List α)
  | [] => .ok []
  | x :: xs => do
      let b ← p x
      let rest ← filterE p xs
      pure (if b then x :: rest else rest)

/-- Python `sorted` on numbers (ascending). -/
def pySorted (l : List ℚ) : List ℚ :=
  l.insertionSort (· ≤ ·)

/-- `statistics.mean`: exact arithmetic mean (callers guard nonemptiness). -/
def listMean (l : List ℚ) : ℚ :=
  l.sum / l.length

/-- `statistics.median`: sort ascending; odd length takes the middle element,
even length the mean of the two middle elements.  `none` models the
`StatisticsError` raised on empty data. -/
def pyStatsMedian (l : List ℚ) : Option ℚ :=
  let s := pySorted l
  let n := l.length
  if n = 0 then none
  else if n % 2 = 1 then some (s.getD (n / 2) 0)
  else some ((s.getD (n / 2 - 1) 0 + s.getD (n / 2) 0) / 2)

/-- The solve time a row contributes (`safe_float(r['solve_time_ms'])`),
as a pure value; meaningful when the column is present. -/
def timeOf (r : Row) : ℚ :=
  safe_float ((rlookup r "solve_time_ms").getD none)

/-! ## Embedding of `examples/scripts/analyze_benchmarks.py` -/

/-- `solve_times[len(solve_times)//2]` on an already-sorted list. -/
def medianOfSorted (s : List ℚ) : Except PyErr ℚ :=
  pyIndexNat s (s.length / 2)

/-- `solve_times[len(solve_times)//10]` (the P10 line of `analyze_opfdata`). -/
def p10OfSorted (s : List ℚ) : Except PyErr ℚ :=
  pyIndexNat s (s.length / 10)

/-- `solve_times[9*len(solve_times)//10]` (the P90 line of `analyze_opfdata`). -/
def p90OfSorted (s : List ℚ) : Except PyErr ℚ :=
  pyIndexNat s (9 * s.length / 10)

/-- The size-bucket dictionary key assigned to a record by `analyze_pglib`:
`if buses < 500 ... elif buses < 2000 ... else ...`. -/
def bucketKey (b : ℤ) : String :=
  if b < 500 then "small (<500 buses)"
  else if b < 2000 then "medium (500-2000 buses)"
  else "large (>2000 buses)"

/-- The sorted gap list of `analyze_pglib`: converged records filtered by
`safe_float(r.get('objective_value', 0)) > 0`, then
`safe_float(r.get('objective_gap_rel', 0))`, sorted. -/
def pglibGapListOf (conv : List Row) : List ℚ :=
  pySorted ((conv.filter (fun r => decide (0 < getFloatD r "objective_value"))).map
    (fun r => getFloatD r "objective_gap_rel"))

/-- The sorted gap list of `analyze_opfdata`: every converged record's
`safe_float(r.get('objective_gap_rel', 0))`, sorted — no validity filter. -/
def opfGapListOf (conv : List Row) : List ℚ :=
  pySorted (conv.map (fun r => getFloatD r "objective_gap_rel"))

/-- The console report of `analyze_pglib`: counts, convergence rate, solve-time
statistics (median, mean, min, max), gap statistics in percent (median, mean,
min, max), and the nonempty size buckets in sorted key order
(category, case count, average solve time). -/
structure PglibReport where
  total : ℕ
  nConv : ℕ
  ratePct : ℚ
  solve : Option (ℚ × ℚ × ℚ × ℚ)
  gap : Option (ℚ × ℚ × ℚ × ℚ)
  buckets : List (String × ℕ × ℚ)
deriving DecidableEq

/-- One line of the size-distribution output: present only when the bucket has
members (absent `defaultdict` keys are never iterated); the inner
`if solve_times:` guard of the source is kept. -/
def bucketLine (cat : List (ℤ × Row)) (key : String) :
    Except PyErr (Option (String × ℕ × ℚ)) := do
  let cases := (cat.filter (fun p => decide (bucketKey p.1 = key))).map Prod.snd
  if cases = [] then pure none
  else do
    let ts ← mapE (fun r => getFloatIdx r "solve_time_ms") cases
    if ts = [] then pure none
    else pure (some (key, cases.length, ts.sum / ts.length))

/-- `analyze_pglib` after `load_csv`: the statistics computed from the rows of
`pglib_full.csv`, in source order (convergence print first, so its division
is the first possible error). -/
def analyze_pglib (data : List Row) : Except PyErr PglibReport := do
  let conv ← filterE getConverged data
  let rate ← pyDiv (100 * conv.length) data.length
  let raw ← mapE (fun r => getFloatIdx r "solve_time_ms") conv
  let st := pySorted raw
  let solve ←
    if st = [] then pure none
    else do
      let med ← medianOfSorted st
      let mn ← pyIndexInt st 0
      let mx ← pyIndexInt st (-1)
      pure (some (med, st.sum / st.length, mn, mx))
  let gaps := pglibGapListOf conv
  let gap ←
    if gaps = [] then pure none
    else do
      let med ← medianOfSorted gaps
      let mn ← pyIndexInt gaps 0
      let mx ← pyIndexInt gaps (-1)
      pure (some (med * 100, gaps.sum / gaps.length * 100, mn * 100, mx * 100))
  let cat ← mapE (fun r => do
      let b ← getIntStrict r "num_buses"
      pure (b, r)) conv
  let bl ← bucketLine cat "large (>2000 buses)"
  let bm ← bucketLine cat "medium (500-2000 buses)"
  let bs ← bucketLine cat "small (<500 buses)"
  pure ⟨data.length, conv.length, rate, solve, gap, [bl, bm, bs].filterMap id⟩

/-- The `analyze_pglib` driver including the missing-file check: a missing
`pglib_full.csv` prints a notice and returns (`none`), never raising. -/
def analyze_pglib_driver (files : String → Option (List Row)) :
    Except PyErr (Option PglibReport) :=
  match files "pglib_full.csv" with
  | none => .ok none
  | some data => do pure (some (← analyze_pglib data))

/-- One `(case, contingency)` file of `analyze_pfdelta`: a missing file is
skipped (`continue`), an existing one contributes its row count, converged
count and converged solve times. -/
def contContrib (files : String → Option (List Row)) (c cont : String) :
    Except PyErr (ℕ × ℕ × List ℚ) :=
  match files ("pfdelta_" ++ c ++ "_" ++ cont ++ ".csv") with
  | none => .ok (0, 0, [])
  | some data => do
      let conv ← filterE getConverged data
      let ts ← mapE (fun r => getFloatIdx r "solve_time_ms") conv
      pure (data.length, conv.length, ts)

/-- The inner contingency loop of `analyze_pfdelta` for one case. -/
def caseAccum (files : String → Option (List Row)) (c : String) :
    Except PyErr (ℕ × ℕ × List ℚ) :=
  ["n", "n1", "n2"].foldlM
    (fun acc cont => do
      let t ← contContrib files c cont
      pure (acc.1 + t.1, acc.2.1 + t.2.1, acc.2.2 ++ t.2.2))
    (0, 0, [])

/-- One printed case line of `analyze_pfdelta`. -/
structure PfdeltaCaseLine where
  caseName : String
  convergedN : ℕ
  samples : ℕ
  ratePct : ℚ
  avgTime : ℚ
deriving DecidableEq

/-- The full `analyze_pfdelta` output: per-case lines (cases with zero samples
are skipped), the overall totals line (absent when no samples at all), and the
overall solve-time line (median, mean; absent when no converged samples). -/
structure PfdeltaReport where
  lines : List PfdeltaCaseLine
  overall : Option (ℕ × ℕ × ℚ)
  overallTime : Option (ℚ × ℚ)
deriving DecidableEq

/-- `analyze_pfdelta`: iterates the fixed 3×3 cross product of cases and
contingency classes, skipping missing files and cases with no samples. -/
def analyze_pfdelta (files : String → Option (List Row)) :
    Except PyErr PfdeltaReport := do
  let acc ← ["case30", "case57", "case118"].foldlM
    (fun (acc : List PfdeltaCaseLine × ℕ × ℕ × List ℚ) c => do
      let t ← caseAccum files c
      if 0 < t.1 then do
        let rate ← pyDiv (100 * t.2.1) t.1
        let avg : ℚ := if t.2.2 = [] then 0 else t.2.2.sum / t.2.2.length
        pure (acc.1 ++ [⟨c, t.2.1, t.1, rate, avg⟩], acc.2.1 + t.1,
          acc.2.2.1 + t.2.1, acc.2.2.2 ++ t.2.2)
      else pure acc)
    ([], 0, 0, [])
  let overall ←
    if 0 < acc.2.1 then do
      let rate ← pyDiv (100 * acc.2.2.1) acc.2.1
      pure (some (acc.2.2.1, acc.2.1, rate))
    else pure none
  let overallTime ←
    if acc.2.2.2 = [] then pure none
    else do
      let s := pySorted acc.2.2.2
      let med ← medianOfSorted s
      pure (some (med, acc.2.2.2.sum / acc.2.2.2.length))
  pure ⟨acc.1, overall, overallTime⟩

/-- The console report of `analyze_opfdata`: counts, convergence rate,
solve-time statistics (median, mean, P10, P90) and gap statistics in percent
(median, mean, P10, P90). -/
structure OpfReport where
  total : ℕ
  nConv : ℕ
  ratePct : ℚ
  solve : Option (ℚ × ℚ × ℚ × ℚ)
  gap : Option (ℚ × ℚ × ℚ × ℚ)
deriving DecidableEq

/-- `analyze_opfdata` after `load_csv` (the single-case AC suite). -/
def analyze_opfdata (data : List Row) : Except PyErr OpfReport := do
  let conv ← filterE getConverged data
  let rate ← pyDiv (100 * conv.length) data.length
  let raw ← mapE (fun r => getFloatIdx r "solve_time_ms") conv
  let st := pySorted raw
  let solve ←
    if st = [] then pure none
    else do
      let med ← medianOfSorted st
      let p10 ← p10OfSorted st
      let p90 ← p90OfSorted st
      pure (some (med, st.sum / st.length, p10, p90))
  let gaps := opfGapListOf conv
  let gap ←
    if gaps = [] then pure none
    else do
      let med ← medianOfSorted gaps
      let p10 ← p10OfSorted gaps
      let p90 ← p90OfSorted gaps
      pure (some (med * 100, gaps.sum / gaps.length * 100, p10 * 100, p90 * 100))
  pure ⟨data.length, conv.length, rate, solve, gap⟩

/-- The `analyze_opfdata` driver including the missing-file check. -/
def analyze_opfdata_driver (files : String → Option (List Row)) :
    Except PyErr (Option OpfReport) :=
  match files "opfdata_case118.csv" with
  | none => .ok none
  | some data => do pure (some (← analyze_opfdata data))

/-- The PGLib line of `generate_latex_table`: converged and total counts,
median solve time and median gap — computed with unguarded list indexing
(`sorted(solve_times)[len(solve_times)//2]`). -/
def latex_pglib_line (data : List Row) : Except PyErr (ℕ × ℕ × ℚ × ℚ) := do
  let conv ← filterE getConverged data
  let raw ← mapE (fun r => getFloatIdx r "solve_time_ms") conv
  let gaps := (conv.filter (fun r => decide (0 < getFloatD r "objective_value"))).map
    (fun r => getFloatD r "objective_gap_rel" * 100)
  let med ← medianOfSorted (pySorted raw)
  let gmed ← medianOfSorted (pySorted gaps)
  pure (conv.length, data.length, med, gmed)

/-! ## Embedding of `validation_results/analyze_results.py` -/

/-- The `BenchmarkResult` dataclass.  `case_name` keeps the raw cell (Python
would store `None` for a short row unchecked). -/
structure BenchmarkResult where
  case_name : Option String
  load_time_ms : ℚ
  solve_time_ms : ℚ
  total_time_ms : ℚ
  converged : Bool
  iterations : ℤ
  num_buses : ℤ
  num_branches : ℤ
  num_gens : ℤ
  objective_value : ℚ
  baseline_objective : ℚ
  objective_gap_abs : ℚ
  objective_gap_rel : ℚ
  max_vm_violation_pu : ℚ
  max_gen_p_violation_mw : ℚ
  max_branch_flow_violation_mva : ℚ
deriving DecidableEq

/-- One row of `load_results`: every numeric field goes through the strict
`float(...)`/`int(...)` conversions, in source order. -/
def loadRow (r : Row) : Except PyErr BenchmarkResult := do
  let cn ← getRaw r "case_name"
  let lt ← getFloatStrict r "load_time_ms"
  let st ← getFloatStrict r "solve_time_ms"
  let tt ← getFloatStrict r "total_time_ms"
  let cv ← loadConverged r
  let it ← getIntStrict r "iterations"
  let nb ← getIntStrict r "num_buses"
  let nbr ← getIntStrict r "num_branches"
  let ng ← getIntStrict r "num_gens"
  let ov ← getFloatStrict r "objective_value"
  let bo ← getFloatStrict r "baseline_objective"
  let ga ← getFloatStrict r "objective_gap_abs"
  let gr ← getFloatStrict r "objective_gap_rel"
  let vm ← getFloatStrict r "max_vm_violation_pu"
  let gp ← getFloatStrict r "max_gen_p_violation_mw"
  let bf ← getFloatStrict r "max_branch_flow_violation_mva"
  pure ⟨cn, lt, st, tt, cv, it, nb, nbr, ng, ov, bo, ga, gr, vm, gp, bf⟩

/-- `load_results`: parse every row strictly; the first bad cell raises. -/
def load_results (rows : List Row) : Except PyErr (List BenchmarkResult) :=
  mapE loadRow rows

/-- The summary dictionary built by `analyze_method`; conditionally-set keys
become `Option` fields (`none` = key absent from the Python dict). -/
structure MethodStats where
  method : String
  total_cases : ℕ
  converged : ℕ
  convergence_rate : ℚ
  solve_time_mean_ms : Option ℚ
  solve_time_median_ms : Option ℚ
  solve_time_max_ms : Option ℚ
  iterations_mean : Option ℚ
  objective_gap_mean_pct : Option ℚ
  objective_gap_median_pct : Option ℚ
  objective_gap_max_pct : Option ℚ
  objective_gap_min_pct : Option ℚ
  vm_violation_max_pu : ℚ
  gen_violation_max_mw : ℚ
  branch_violation_max_mva : ℚ
  cases_with_vm_violation : ℕ
  cases_with_branch_violation : ℕ
deriving DecidableEq

/-- `analyze_method`: `none` models the empty dict returned for an empty
result list (falsy, skipped by both printers). -/
def analyze_method (name : String) (results : List BenchmarkResult) :
    Option MethodStats :=
  if results = [] then none
  else
    let conv := results.filter (·.converged)
    let wb := conv.filter (fun r => decide (0 < r.baseline_objective))
    let solveTimes := conv.map (·.solve_time_ms)
    let gaps := wb.map (fun r => r.objective_gap_rel * 100)
    let vmViol := conv.map (·.max_vm_violation_pu)
    let genViol := conv.map (·.max_gen_p_violation_mw)
    let branchViol := conv.map (·.max_branch_flow_violation_mva)
    some
      { method := name
        total_cases := results.length
        converged := conv.length
        convergence_rate := (conv.length : ℚ) / results.length * 100
        solve_time_mean_ms := if conv = [] then none else some (listMean solveTimes)
        solve_time_median_ms := if conv = [] then none else pyStatsMedian solveTimes
        solve_time_max_ms := if conv = [] then none else solveTimes.max?
        iterations_mean :=
          if conv = [] then none else some (listMean (conv.map (fun r => (r.iterations : ℚ))))
        objective_gap_mean_pct := if wb = [] then none else some (listMean gaps)
        objective_gap_median_pct := if wb = [] then none else pyStatsMedian gaps
        objective_gap_max_pct := if wb = [] then none else gaps.max?
        objective_gap_min_pct := if wb = [] then none else gaps.min?
        vm_violation_max_pu := vmViol.max?.getD 0
        gen_violation_max_mw := genViol.max?.getD 0
        branch_violation_max_mva := branchViol.max?.getD 0
        cases_with_vm_violation :=
          (vmViol.filter (fun v => decide ((1 : ℚ) / 1000000 < v))).length
        cases_with_branch_violation :=
          (branchViol.filter (fun v => decide ((1 : ℚ) / 1000 < v))).length }

/-- The numbers printed for one method by `print_summary_table`:
method, converged, total, rate, then `dict.get(..., 0)` placeholders for the
gap mean, solve-time mean, and the two violation maxima. -/
def summary_row (s : MethodStats) : String × ℕ × ℕ × ℚ × ℚ × ℚ × ℚ × ℚ :=
  (s.method, s.converged, s.total_cases, s.convergence_rate,
   s.objective_gap_mean_pct.getD 0, s.solve_time_mean_ms.getD 0,
   s.vm_violation_max_pu, s.branch_violation_max_mva)

/-- The numbers printed for one method by `print_latex_table` (same
`dict.get(..., 0)` placeholder rule). -/
def latex_row (s : MethodStats) : String × ℕ × ℕ × ℚ × ℚ × ℚ × ℚ :=
  (s.method, s.converged, s.total_cases, s.objective_gap_mean_pct.getD 0,
   s.solve_time_mean_ms.getD 0, s.vm_violation_max_pu, s.branch_violation_max_mva)

/-- The `all_stats` list built by `main` of `analyze_results.py`: for each of
the three fixed method files, a missing file is skipped with a notice; an
existing one is loaded strictly and summarised. -/
def mainAllStats (files : String → Option (List Row)) :
    Except PyErr (List (Option MethodStats)) :=
  [("DC-OPF", "pglib_dc.csv"), ("SOCP", "pglib_socp.csv"), ("AC-OPF", "pglib_ac.csv")].foldlM
    (fun acc mp =>
      match files mp.2 with
      | none => pure acc
      | some rows => do
          let rs ← load_results rows
          pure (acc ++ [analyze_method mp.1 rs]))
    []

/-! ## Embedding of `examples/scripts/parse_baseline.py` -/

/-- Python dict assignment `d[k] = v`: replace in place, else append. -/
def dictSet : List (String × ℚ) → String → ℚ → List (String × ℚ)
  | [], k, v => [(k, v)]
  | (k0, v0) :: rest, k, v =>
      if k0 = k then (k, v) :: rest else (k0, v0) :: dictSet rest k v

/-- Python dict lookup `d[k]`. -/
def dlookup : List (String × ℚ) → String → Option ℚ
  | [], _ => none
  | (k0, v) :: rest, k => if k0 = k then some v else dlookup rest k

/-- `parse_baseline`, with the per-line regex match abstracted as the
function `matchLine` (returning the captured case name and AC objective):
accumulate `results[case_name] = ac_cost` over the input lines, then emit one
CSV row per key in `sorted(results.keys())` order. -/
def parse_baseline (matchLine : String → Option (String × ℚ)) (ls : List String) :
    List (String × ℚ) :=
  let results := ls.foldl
    (fun d line =>
      match matchLine line with
      | some cv => dictSet d cv.1 cv.2
      | none => d)
    []
  (List.insertionSort (· ≤ ·) (results.map Prod.fst)).filterMap
    (fun c => (dlookup results c).map (fun v => (c, v)))

/-- Spec-side description: the captured value of the last input line matching
case `c` (later lines are checked first). -/
def lastMatchValue (matchLine : String → Option (String × ℚ)) :
    List String → String → Option ℚ
  | [], _ => none
  | line :: rest, c =>
      match lastMatchValue matchLine rest c with
      | some v => some v
      | none =>
          match matchLine line with
          | some cv => if cv.1 = c then some cv.2 else none
          | none => none

/-! ## Spec-side statistics formulas -/

/-- Spec formula: `median(seq) = sorted(seq)[len(seq)//2]`. -/
def specMedian (seq : List ℚ) : Option ℚ :=
  (pySorted seq).get? (seq.length / 2)

/-- Spec formula: `percentile(seq, p) = sorted(seq)[floor(len(seq)*p/100)]`. -/
def specPercentile (seq : List ℚ) (p : ℕ) : Option ℚ :=
  (pySorted seq).get? (seq.length * p / 100)

-- Decidable equality of modelled Python results, for concrete evaluation.
deriving instance DecidableEq for Except

/-- Spec-side reading of the solve-time block of `analyze_pglib` as a pure
function of the sorted time list (median, mean, min, max; absent when empty). -/
def solveStatsSpec (s : List ℚ) : Option (ℚ × ℚ × ℚ × ℚ) :=
  if s = [] then none
  else some (s.getD (s.length / 2) 0, s.sum / s.length, s.getD 0 0, s.getD (s.length - 1) 0)

/-- Spec-side reading of the gap block of `analyze_pglib` (values in percent). -/
def gapStatsSpec (g : List ℚ) : Option (ℚ × ℚ × ℚ × ℚ) :=
  if g = [] then none
  else some (g.getD (g.length / 2) 0 * 100, g.sum / g.length * 100,
    g.getD 0 0 * 100, g.getD (g.length - 1) 0 * 100)

/-- Spec-side reading of the solve-time block of `analyze_opfdata`
(median, mean, P10, P90). -/
def opfSolveStatsSpec (s : List ℚ) : Option (ℚ × ℚ × ℚ × ℚ) :=
  if s = [] then none
  else some (s.getD (s.length / 2) 0, s.sum / s.length,
    s.getD (s.length / 10) 0, s.getD (9 * s.length / 10) 0)

/-- Spec-side reading of the gap block of `analyze_opfdata` (percent). -/
def opfGapStatsSpec (g : List ℚ) : Option (ℚ × ℚ × ℚ × ℚ) :=
  if g = [] then none
  else some (g.getD (g.length / 2) 0 * 100, g.sum / g.length * 100,
    g.getD (g.length / 10) 0 * 100, g.getD (9 * g.length / 10) 0 * 100)

/-- Spec-side reading of one size-bucket output line. -/
def bucketLineSpec (cat : List (ℤ × Row)) (key : String) : Option (String × ℕ × ℚ) :=
  let cases := (cat.filter (fun p => decide (bucketKey p.1 = key))).map Prod.snd
  if cases = [] then none
  else some (key, cases.length, (cases.map timeOf).sum / (cases.map timeOf).length)

/-- Spec-side reading of the size-distribution output (sorted key order,
empty buckets omitted). -/
def bucketsSpec (cat : List (ℤ × Row)) : List (String × ℕ × ℚ) :=
  [bucketLineSpec cat "large (>2000 buses)", bucketLineSpec cat "medium (500-2000 buses)",
   bucketLineSpec cat "small (<500 buses)"].filterMap id

/-- Overwrite the value stored under column `k` of a row (used to state that
a computation never reads that column). -/
def setField (r : Row) (k : String) (v : Option String) : Row :=
  r.map (fun p => if p.1 = k then (p.1, v) else p)

/-! ## Concrete sample data -/

/-- A `BenchmarkResult` with the fields the claims exercise. -/
def sampleResult (solve vm baseline objv gap : ℚ) (conv : Bool) : BenchmarkResult :=
  ⟨some "case", 0, solve, 0, conv, 0, 0, 0, 0, objv, baseline, 0, gap, vm, 0, 0⟩

/-- A converged full-network row: solve 5.0 ms, 100 buses, positive objective,
nonpositive baseline, relative gap 0.1. -/
def rowA : Row :=
  [("case_name", some "a"), ("converged", some "True"), ("solve_time_ms", some "5.0"),
   ("num_buses", some "100"), ("objective_value", some "10"),
   ("objective_gap_rel", some "0.1"), ("baseline_objective", some "-5")]

/-- A converged row: solve 7.0 ms, 700 buses, zero objective. -/
def rowB : Row :=
  [("case_name", some "b"), ("converged", some "true"), ("solve_time_ms", some "7.0"),
   ("num_buses", some "700"), ("objective_value", some "0"),
   ("objective_gap_rel", some "0.2"), ("baseline_objective", some "3")]

/-- A converged row: solve 9.0 ms, 3000 buses. -/
def rowC : Row :=
  [("case_name", some "c"), ("converged", some "true"), ("solve_time_ms", some "9.0"),
   ("num_buses", some "3000"), ("objective_value", some "2"),
   ("objective_gap_rel", some "0.3"), ("baseline_objective", some "1")]

/-- A non-converged row. -/
def noConvRow : Row :=
  [("converged", some "false"), ("solve_time_ms", some "5.0")]

/-- A complete 16-column row for `load_results`, with a caller-chosen
`solve_time_ms` cell. -/
def fullRow (solveVal : Option String) : Row :=
  [("case_name", some "c1"), ("load_time_ms", some "1.0"), ("solve_time_ms", solveVal),
   ("total_time_ms", some "2.0"), ("converged", some "true"), ("iterations", some "3"),
   ("num_buses", some "14"), ("num_branches", some "20"), ("num_gens", some "5"),
   ("objective_value", some "100.0"), ("baseline_objective", some "99.0"),
   ("objective_gap_abs", some "1.0"), ("objective_gap_rel", some "0.0101"),
   ("max_vm_violation_pu", some "0.0"), ("max_gen_p_violation_mw", some "0.0"),
   ("max_branch_flow_violation_mva", some "0.0")]

/-- A converged full-network row whose `num_buses` cell does not parse as an
integer. -/
def badBusRow : Row :=
  [("case_name", some "bb"), ("converged", some "true"), ("solve_time_ms", some "5.0"),
   ("num_buses", some "abc"), ("objective_value", some "1"),
   ("objective_gap_rel", some "0.0"), ("baseline_objective", some "1")]

/-- A results directory holding only `case30`'s base-contingency file, with
two converged rows (5.0 ms and 7.0 ms); the other eight sweep files are
absent. -/
def pfdeltaScenario : String → Option (List Row) := fun nm =>
  if nm = "pfdelta_case30_n.csv" then
    some [[("converged", some "true"), ("solve_time_ms", some "5.0")],
          [("converged", some "true"), ("solve_time_ms", some "7.0")]]
  else none

/-- An empty results directory. -/
def emptyFiles : String → Option (List Row) := fun _ => none

/-! ## Helper lemmas: the `Except` monad and the effectful list combinators -/

@[simp] theorem ok_bind {α β : Type} (a : α) (f : α → Except PyErr β) :
    (Except.ok a >>= f) = f a := rfl

@[simp] theorem error_bind {α β : Type} (e : PyErr) (f : α → Except PyErr β) :
    ((Except.error e : Except PyErr α) >>= f) = .error e := rfl

@[simp] theorem pure_eq_ok {α : Type} (a : α) : (pure a : Except PyErr α) = .ok a := rfl

theorem except_bind_ok {α β : Type} {x : Except PyErr α} {f : α → Except PyErr β} {b : β}
    (h : (x >>= f) = .ok b) : ∃ a, x = .ok a ∧ f a = .ok b := by
  cases x with
  | error e => exact absurd h (by simp [Bind.bind, Except.bind])
  | ok a => exact ⟨a, rfl, by simpa [Bind.bind, Except.bind] using h⟩

theorem mapE_nil {α β : Type} (f : α → Except PyErr β) : mapE f [] = .ok [] := rfl

theorem mapE_cons {α β : Type} (f : α → Except PyErr β) (x : α) (xs : List α) :
    mapE f (x :: xs) = (f x >>= fun y => mapE f xs >>= fun rest => pure (y :: rest)) := rfl

theorem mapE_ok_cons {α β : Type} {f : α → Except PyErr β} {x : α} {xs : List α}
    {l' : List β} (h : mapE f (x :: xs) = .ok l') :
    ∃ y rest, f x = .ok y ∧ mapE f xs = .ok rest ∧ l' = y :: rest := by
  rw [mapE_cons] at h
  obtain ⟨y, hy, h⟩ := except_bind_ok h
  obtain ⟨rest, hrest, h⟩ := except_bind_ok h
  exact ⟨y, rest, hy, hrest, by simpa using h.symm⟩

theorem mapE_length {α β : Type} {f : α → Except PyErr β} :
    ∀ {l : List α} {l' : List β}, mapE f l = .ok l' → l'.length = l.length := by
  intro l
  induction l with
  | nil => intro l' h; rw [mapE_nil] at h; simp [← Except.ok.injEq .. |>.mp h]
  | cons x xs ih =>
      intro l' h
      obtain ⟨y, rest, _, hrest, hl⟩ := mapE_ok_cons h
      subst hl
      simp [ih hrest]

theorem mapE_of_forall {α β : Type} {f : α → Except PyErr β} {g : α → β} :
    ∀ l : List α, (∀ a ∈ l, f a = .ok (g a)) → mapE f l = .ok (l.map g) := by
  intro l
  induction l with
  | nil => intro _; rfl
  | cons x xs ih =>
      intro h
      rw [mapE_cons, h x (by simp), ok_bind, ih (fun a ha => h a (by simp [ha]))]
      simp

theorem mapE_error_of_mem {α β : Type} {f : α → Except PyErr β} :
    ∀ {l : List α} {a : α}, a ∈ l → (∀ b, f a ≠ .ok b) → ∃ e, mapE f l = .error e := by
  intro l
  induction l with
  | nil => intro a ha; exact absurd ha (by simp)
  | cons x xs ih =>
      intro a ha hbad
      rcases List.mem_cons.mp ha with rfl | hmem
      · cases hfx : f a with
        | error e => exact ⟨e, by rw [mapE_cons, hfx, error_bind]⟩
        | ok b => exact absurd hfx (hbad b)
      · cases hfx : f x with
        | error e => exact ⟨e, by rw [mapE_cons, hfx, error_bind]⟩
        | ok y =>
            obtain ⟨e, he⟩ := ih hmem hbad
            exact ⟨e, by rw [mapE_cons, hfx, ok_bind, he, error_bind]⟩

theorem filterE_nil {α : Type} (p : α → Except PyErr Bool) : filterE p [] = .ok [] := rfl

theorem filterE_cons {α : Type} (p : α → Except PyErr Bool) (x : α) (xs : List α) :
    filterE p (x :: xs) =
      (p x >>= fun b => filterE p xs >>= fun rest => pure (if b then x :: rest else rest)) := rfl

/-! ## Helper lemmas: accessors, indexing, sorting -/

theorem getFloatIdx_of_isSome {r : Row} {k : String} (h : (rlookup r k).isSome) :
    getFloatIdx r k = .ok (safe_float ((rlookup r k).getD none)) := by
  unfold getFloatIdx getRaw
  cases hh : rlookup r k with
  | none => rw [hh] at h; exact absurd h (by simp)
  | some v => simp

theorem getFloatIdx_ok_inv {r : Row} {k : String} {q : ℚ} (h : getFloatIdx r k = .ok q) :
    (rlookup r k).isSome ∧ q = safe_float ((rlookup r k).getD none) := by
  unfold getFloatIdx getRaw at h
  cases hh : rlookup r k with
  | none => rw [hh] at h; exact absurd h (by simp)
  | some v =>
      rw [hh] at h
      simp only [ok_bind, pure_eq_ok, Except.ok.injEq] at h
      simp [h]

theorem mapE_times (cs : List Row) (h : ∀ r ∈ cs, (rlookup r "solve_time_ms").isSome) :
    mapE (fun r => getFloatIdx r "solve_time_ms") cs = .ok (cs.map timeOf) :=
  mapE_of_forall cs (fun r hr => getFloatIdx_of_isSome (h r hr))

theorem mapE_times_inv {cs : List Row} {raw : List ℚ}
    (h : mapE (fun r => getFloatIdx r "solve_time_ms") cs = .ok raw) :
    raw = cs.map timeOf ∧ ∀ r ∈ cs, (rlookup r "solve_time_ms").isSome := by
  induction cs generalizing raw with
  | nil =>
      rw [mapE_nil] at h
      refine ⟨by simpa using (Except.ok.injEq .. |>.mp h).symm, by simp⟩
  | cons x xs ih =>
      obtain ⟨y, rest, hy, hrest, hl⟩ := mapE_ok_cons h
      obtain ⟨hx1, hx2⟩ := getFloatIdx_ok_inv hy
      obtain ⟨h1, h2⟩ := ih hrest
      subst hl
      refine ⟨by simp [h1, ← hx2, timeOf], ?_⟩
      · intro r hr
        rcases List.mem_cons.mp hr with rfl | hmem
        · exact hx1
        · exact h2 r hmem

theorem mapE_buses_inv {cs : List Row} {cat : List (ℤ × Row)}
    (h : mapE (fun r => do
        let b ← getIntStrict r "num_buses"
        pure (b, r)) cs = .ok cat) :
    cat.map Prod.snd = cs := by
  induction cs generalizing cat with
  | nil =>
      rw [mapE_nil] at h
      simpa using (Except.ok.injEq .. |>.mp h).symm
  | cons x xs ih =>
      obtain ⟨y, rest, hy, hrest, hl⟩ := mapE_ok_cons h
      obtain ⟨b, _, hpure⟩ := except_bind_ok hy
      subst hl
      have hsnd : y.2 = x := by
        have := (Except.ok.injEq .. |>.mp hpure)
        simp [← this]
      simp [hsnd, ih hrest]

theorem pyDiv_ok {a b : ℚ} (h : b ≠ 0) : pyDiv a b = .ok (a / b) := by
  simp [pyDiv, h]

theorem get?_eq_some_getD {l : List ℚ} {n : ℕ} (h : n < l.length) :
    l.get? n = some (l.getD n 0) := by
  induction l generalizing n with
  | nil => simp at h
  | cons a t ih =>
      cases n with
      | zero => simp
      | succ m => simpa using ih (by simpa using h)

theorem pyIndexNat_ok {l : List ℚ} {n : ℕ} (h : n < l.length) :
    pyIndexNat l n = .ok (l.getD n 0) := by
  unfold pyIndexNat
  rw [get?_eq_some_getD h]

theorem length_pos_of_ne_nil {α : Type} {l : List α} (h : l ≠ []) : 0 < l.length :=
  List.length_pos.mpr h

theorem medianOfSorted_ok {s : List ℚ} (h : s ≠ []) :
    medianOfSorted s = .ok (s.getD (s.length / 2) 0) :=
  pyIndexNat_ok (Nat.div_lt_self (length_pos_of_ne_nil h) (by norm_num))

theorem p10OfSorted_ok {s : List ℚ} (h : s ≠ []) :
    p10OfSorted s = .ok (s.getD (s.length / 10) 0) :=
  pyIndexNat_ok (Nat.div_lt_self (length_pos_of_ne_nil h) (by norm_num))

theorem p90OfSorted_ok {s : List ℚ} (h : s ≠ []) :
    p90OfSorted s = .ok (s.getD (9 * s.length / 10) 0) := by
  refine pyIndexNat_ok ?_
  have h0 := length_pos_of_ne_nil h
  exact Nat.div_lt_of_lt_mul (by omega)

theorem pyIndexInt_zero {s : List ℚ} (h : s ≠ []) :
    pyIndexInt s 0 = .ok (s.getD 0 0) := by
  unfold pyIndexInt
  simpa using pyIndexNat_ok (length_pos_of_ne_nil h)

theorem pyIndexInt_neg_one {s : List ℚ} (h : s ≠ []) :
    pyIndexInt s (-1) = .ok (s.getD (s.length - 1) 0) := by
  unfold pyIndexInt
  have h0 := length_pos_of_ne_nil h
  have hj : (0 : ℤ) ≤ -1 + s.length := by omega
  have ht : (-1 + (s.length : ℤ)).toNat = s.length - 1 := by omega
  simp only [if_pos (by norm_num : (-1 : ℤ) < 0), if_pos hj, ht]
  exact pyIndexNat_ok (by omega)

theorem pySorted_length (l : List ℚ) : (pySorted l).length = l.length :=
  List.length_insertionSort _ l

theorem pySorted_eq_nil_iff {l : List ℚ} : pySorted l = [] ↔ l = [] := by
  constructor
  · intro h
    have := pySorted_length l
    rw [h] at this
    exact List.length_eq_zero.mp this.symm
  · intro h; subst h; rfl

theorem pySorted_mem {x : ℚ} {l : List ℚ} : x ∈ pySorted l ↔ x ∈ l :=
  List.mem_insertionSort _

/-! ## Forward characterizations of the suite analyzers -/

theorem bucketLine_ok {cat : List (ℤ × Row)} (key : String)
    (h : ∀ r ∈ cat.map Prod.snd, (rlookup r "solve_time_ms").isSome) :
    bucketLine cat key = .ok (bucketLineSpec cat key) := by
  unfold bucketLine bucketLineSpec
  by_cases hc : (cat.filter (fun p => decide (bucketKey p.1 = key))).map Prod.snd = []
  · rw [if_pos hc, if_pos hc]; rfl
  · rw [if_neg hc, if_neg hc]
    have hsub : ∀ r ∈ (cat.filter (fun p => decide (bucketKey p.1 = key))).map Prod.snd,
        (rlookup r "solve_time_ms").isSome := by
      intro r hr
      obtain ⟨pr, hpr, hsnd⟩ := List.mem_map.mp hr
      exact h r (List.mem_map.mpr ⟨pr, List.mem_of_mem_filter hpr, hsnd⟩)
    rw [mapE_times _ hsub, ok_bind]
    rw [if_neg (by simpa using hc)]
    rfl

theorem analyze_pglib_spec {data conv : List Row} {raw : List ℚ} {cat : List (ℤ × Row)}
    (h1 : filterE getConverged data = .ok conv)
    (h2 : mapE (fun r => getFloatIdx r "solve_time_ms") conv = .ok raw)
    (h3 : mapE (fun r => do
        let b ← getIntStrict r "num_buses"
        pure (b, r)) conv = .ok cat)
    (h4 : data ≠ []) :
    analyze_pglib data = .ok ⟨data.length, conv.length, 100 * conv.length / data.length,
      solveStatsSpec (pySorted raw), gapStatsSpec (pglibGapListOf conv), bucketsSpec cat⟩ := by
  have hlen : data.length ≠ 0 := fun hc => h4 (List.length_eq_zero.mp hc)
  have hden : ((data.length : ℚ)) ≠ 0 := Nat.cast_ne_zero.mpr hlen
  have hkeys : ∀ r ∈ cat.map Prod.snd, (rlookup r "solve_time_ms").isSome := by
    rw [mapE_buses_inv h3]
    exact (mapE_times_inv h2).2
  have h3e : mapE (fun r => getIntStrict r "num_buses" >>= fun b => Except.ok (b, r)) conv =
      Except.ok cat := h3
  unfold analyze_pglib
  rw [h1, ok_bind, pyDiv_ok hden, ok_bind, h2, ok_bind]
  by_cases hs : pySorted raw = [] <;> by_cases hg : pglibGapListOf conv = [] <;>
    simp [h3e, hs, hg, medianOfSorted_ok, pyIndexInt_zero, pyIndexInt_neg_one,
      bucketLine_ok _ hkeys, solveStatsSpec, gapStatsSpec, bucketsSpec]

theorem analyze_opfdata_spec {data conv : List Row} {raw : List ℚ}
    (h1 : filterE getConverged data = .ok conv)
    (h2 : mapE (fun r => getFloatIdx r "solve_time_ms") conv = .ok raw)
    (h4 : data ≠ []) :
    analyze_opfdata data = .ok ⟨data.length, conv.length, 100 * conv.length / data.length,
      opfSolveStatsSpec (pySorted raw), opfGapStatsSpec (opfGapListOf conv)⟩ := by
  have hlen : data.length ≠ 0 := fun hc => h4 (List.length_eq_zero.mp hc)
  have hden : ((data.length : ℚ)) ≠ 0 := Nat.cast_ne_zero.mpr hlen
  unfold analyze_opfdata
  rw [h1, ok_bind, pyDiv_ok hden, ok_bind, h2, ok_bind]
  by_cases hs : pySorted raw = [] <;> by_cases hg : opfGapListOf conv = [] <;>
    simp [hs, hg, medianOfSorted_ok, p10OfSorted_ok, p90OfSorted_ok,
      opfSolveStatsSpec, opfGapStatsSpec]

/-! ## Helper lemmas: the contingency-sweep driver -/

theorem contContrib_trivial {files : String → Option (List Row)} {c cont : String}
    (h : files ("pfdelta_" ++ c ++ "_" ++ cont ++ ".csv") = none ∨
      files ("pfdelta_" ++ c ++ "_" ++ cont ++ ".csv") = some []) :
    contContrib files c cont = .ok (0, 0, []) := by
  unfold contContrib
  rcases h with h | h
  all_goals rw [h]
  all_goals try rfl

theorem caseAccum_trivial {files : String → Option (List Row)} {c : String}
    (h : ∀ nm, files nm = none ∨ files nm = some []) :
    caseAccum files c = .ok (0, 0, []) := by
  unfold caseAccum
  simp [List.foldlM, contContrib_trivial (h _)]

theorem analyze_pfdelta_skip {files : String → Option (List Row)}
    (h : ∀ nm, files nm = none ∨ files nm = some []) :
    analyze_pfdelta files = .ok ⟨[], none, none⟩ := by
  unfold analyze_pfdelta
  simp [List.foldlM, caseAccum_trivial h]

/-! ## Helper lemmas: field independence (no gap metrics in the sweep) -/

theorem rlookup_setField_ne {r : Row} {k k' : String} (hne : k' ≠ k) (v : Option String) :
    rlookup (setField r k v) k' = rlookup r k' := by
  induction r with
  | nil => rfl
  | cons p rest ih =>
      obtain ⟨k0, v0⟩ := p
      by_cases h0 : k0 = k
      · show rlookup ((if k0 = k then (k0, v) else (k0, v0)) :: setField rest k v) k' = _
        rw [if_pos h0]
        have hk0 : ¬ k0 = k' := fun hc => hne (h0 ▸ hc.symm)
        show (if k0 = k' then some v else rlookup (setField rest k v) k') =
          (if k0 = k' then some v0 else rlookup rest k')
        rw [if_neg hk0, if_neg hk0]
        exact ih
      · show rlookup ((if k0 = k then (k0, v) else (k0, v0)) :: setField rest k v) k' = _
        rw [if_neg h0]
        show (if k0 = k' then some v0 else rlookup (setField rest k v) k') =
          (if k0 = k' then some v0 else rlookup rest k')
        by_cases h1 : k0 = k'
        · rw [if_pos h1, if_pos h1]
        · rw [if_neg h1, if_neg h1]
          exact ih

theorem getConverged_setField (r : Row) (v : Option String) :
    getConverged (setField r "objective_gap_rel" v) = getConverged r := by
  unfold getConverged getConvStr
  rw [rlookup_setField_ne (by decide) v]

theorem getFloatIdx_setField (r : Row) (v : Option String) :
    getFloatIdx (setField r "objective_gap_rel" v) "solve_time_ms" =
      getFloatIdx r "solve_time_ms" := by
  unfold getFloatIdx getRaw
  rw [rlookup_setField_ne (by decide) v]

theorem filterE_conv_map {g : Row → Row} (hg : ∀ r, getConverged (g r) = getConverged r) :
    ∀ l : List Row, filterE getConverged (l.map g) =
      Except.map (List.map g) (filterE getConverged l) := by
  intro l
  induction l with
  | nil => rfl
  | cons x xs ih =>
      rw [List.map_cons, filterE_cons, filterE_cons, hg]
      cases hx : getConverged x with
      | error e => simp [Except.map]
      | ok b =>
          rw [ok_bind, ok_bind, ih]
          cases hxs : filterE getConverged xs with
          | error e => simp [Except.map]
          | ok c =>
              simp only [Except.map, ok_bind, pure_eq_ok]
              cases b <;> simp

theorem mapE_times_map {g : Row → Row}
    (hg : ∀ r, getFloatIdx (g r) "solve_time_ms" = getFloatIdx r "solve_time_ms") :
    ∀ l : List Row, mapE (fun r => getFloatIdx r "solve_time_ms") (l.map g) =
      mapE (fun r => getFloatIdx r "solve_time_ms") l := by
  intro l
  induction l with
  | nil => rfl
  | cons x xs ih => rw [List.map_cons, mapE_cons, mapE_cons, hg, ih]

theorem fileContrib_setGap (data : List Row) (v : Option String) :
    (do
      let conv ← filterE getConverged
        (data.map (fun r => setField r "objective_gap_rel" v))
      let ts ← mapE (fun r => getFloatIdx r "solve_time_ms") conv
      pure ((data.map (fun r => setField r "objective_gap_rel" v)).length, conv.length, ts) :
      Except PyErr (ℕ × ℕ × List ℚ)) =
    (do
      let conv ← filterE getConverged data
      let ts ← mapE (fun r => getFloatIdx r "solve_time_ms") conv
      pure (data.length, conv.length, ts)) := by
  rw [filterE_conv_map (fun r => getConverged_setField r v)]
  cases hfe : filterE getConverged data with
  | error e => simp [Except.map]
  | ok conv =>
      simp only [Except.map, ok_bind]
      rw [mapE_times_map (fun r => getFloatIdx_setField r v)]
      cases hm : mapE (fun r => getFloatIdx r "solve_time_ms") conv with
      | error e => simp
      | ok ts => simp

theorem contContrib_setGap (files : String → Option (List Row)) (v : Option String)
    (c cont : String) :
    contContrib (fun nm => (files nm).map
        (List.map (fun r => setField r "objective_gap_rel" v))) c cont =
      contContrib files c cont := by
  unfold contContrib
  cases hf : files ("pfdelta_" ++ c ++ "_" ++ cont ++ ".csv") with
  | none => simp only [hf]; rfl
  | some data =>
      simp only [hf]
      exact fileContrib_setGap data v

theorem caseAccum_setGap (files : String → Option (List Row)) (v : Option String)
    (c : String) :
    caseAccum (fun nm => (files nm).map
        (List.map (fun r => setField r "objective_gap_rel" v))) c =
      caseAccum files c := by
  unfold caseAccum
  simp only [contContrib_setGap]

theorem analyze_pfdelta_setGap (files : String → Option (List Row)) (v : Option String) :
    analyze_pfdelta (fun nm => (files nm).map
        (List.map (fun r => setField r "objective_gap_rel" v))) =
      analyze_pfdelta files := by
  unfold analyze_pfdelta
  simp only [caseAccum_setGap]

/-! ## Helper lemmas: the baseline extractor dictionary -/

theorem dictSet_cons_eq {k0 : String} {v0 : ℚ} {rest : List (String × ℚ)} {k : String}
    {v : ℚ} (h : k0 = k) : dictSet ((k0, v0) :: rest) k v = (k, v) :: rest := by
  simp [dictSet, h]

theorem dictSet_cons_ne {k0 : String} {v0 : ℚ} {rest : List (String × ℚ)} {k : String}
    {v : ℚ} (h : ¬ k0 = k) :
    dictSet ((k0, v0) :: rest) k v = (k0, v0) :: dictSet rest k v := by
  simp [dictSet, h]

theorem dlookup_cons_eq {k0 : String} {v0 : ℚ} {rest : List (String × ℚ)} {k : String}
    (h : k0 = k) : dlookup ((k0, v0) :: rest) k = some v0 := by
  simp [dlookup, h]

theorem dlookup_cons_ne {k0 : String} {v0 : ℚ} {rest : List (String × ℚ)} {k : String}
    (h : ¬ k0 = k) : dlookup ((k0, v0) :: rest) k = dlookup rest k := by
  simp [dlookup, h]

theorem dlookup_dictSet_self (d : List (String × ℚ)) (k : String) (v : ℚ) :
    dlookup (dictSet d k v) k = some v := by
  induction d with
  | nil => simp [dictSet, dlookup]
  | cons p rest ih =>
      obtain ⟨k0, v0⟩ := p
      by_cases h0 : k0 = k
      · rw [dictSet_cons_eq h0, dlookup_cons_eq rfl]
      · rw [dictSet_cons_ne h0, dlookup_cons_ne h0]
        exact ih

theorem dlookup_dictSet_ne (d : List (String × ℚ)) {k k' : String} (h : k' ≠ k) (v : ℚ) :
    dlookup (dictSet d k v) k' = dlookup d k' := by
  have hk : ¬ k = k' := fun hc => h hc.symm
  induction d with
  | nil =>
      show dlookup [(k, v)] k' = dlookup [] k'
      rw [dlookup_cons_ne hk]
  | cons p rest ih =>
      obtain ⟨k0, v0⟩ := p
      by_cases h0 : k0 = k
      · rw [dictSet_cons_eq h0, dlookup_cons_ne hk, dlookup_cons_ne (h0 ▸ hk)]
      · rw [dictSet_cons_ne h0]
        by_cases h1 : k0 = k'
        · rw [dlookup_cons_eq h1, dlookup_cons_eq h1]
        · rw [dlookup_cons_ne h1, dlookup_cons_ne h1]
          exact ih

theorem dlookup_isSome_iff (d : List (String × ℚ)) (c : String) :
    (dlookup d c).isSome ↔ c ∈ d.map Prod.fst := by
  induction d with
  | nil => simp [dlookup]
  | cons p rest ih =>
      obtain ⟨k0, v0⟩ := p
      by_cases h0 : k0 = c
      · rw [dlookup_cons_eq h0]
        simp [h0]
      · rw [dlookup_cons_ne h0]
        simp only [List.map_cons, List.mem_cons, ih]
        constructor
        · exact Or.inr
        · rintro (hc | hc)
          · exact absurd hc.symm h0
          · exact hc

theorem mem_keys_dictSet (d : List (String × ℚ)) (k : String) (v : ℚ) (k' : String) :
    k' ∈ (dictSet d k v).map Prod.fst ↔ k' = k ∨ k' ∈ d.map Prod.fst := by
  induction d with
  | nil => simp [dictSet]
  | cons p rest ih =>
      obtain ⟨k0, v0⟩ := p
      by_cases h0 : k0 = k
      · rw [dictSet_cons_eq h0]
        subst h0
        simp
      · rw [dictSet_cons_ne h0]
        simp only [List.map_cons, List.mem_cons, ih]
        tauto

theorem nodup_keys_dictSet (d : List (String × ℚ)) (k : String) (v : ℚ)
    (h : (d.map Prod.fst).Nodup) : ((dictSet d k v).map Prod.fst).Nodup := by
  induction d with
  | nil => simp [dictSet]
  | cons p rest ih =>
      obtain ⟨k0, v0⟩ := p
      simp only [List.map_cons, List.nodup_cons] at h
      by_cases h0 : k0 = k
      · rw [dictSet_cons_eq h0]
        simp only [List.map_cons, List.nodup_cons]
        exact ⟨h0 ▸ h.1, h.2⟩
      · rw [dictSet_cons_ne h0]
        simp only [List.map_cons, List.nodup_cons]
        refine ⟨?_, ih h.2⟩
        intro hc
        rcases (mem_keys_dictSet rest k v k0).mp hc with hc | hc
        · exact h0 hc
        · exact h.1 hc

theorem lastMatchValue_cons (matchLine : String → Option (String × ℚ)) (line : String)
    (rest : List String) (c : String) :
    lastMatchValue matchLine (line :: rest) c =
      (match lastMatchValue matchLine rest c with
       | some v => some v
       | none =>
           match matchLine line with
           | some cv => if cv.1 = c then some cv.2 else none
           | none => none) := rfl

theorem dlookup_baseline_fold (matchLine : String → Option (String × ℚ)) :
    ∀ (ls : List String) (d : List (String × ℚ)) (c : String),
      dlookup (ls.foldl (fun d line =>
        match matchLine line with
        | some cv => dictSet d cv.1 cv.2
        | none => d) d) c =
      (match lastMatchValue matchLine ls c with
       | some v => some v
       | none => dlookup d c) := by
  intro ls
  induction ls with
  | nil => intro d c; rfl
  | cons line rest ih =>
      intro d c
      rw [List.foldl_cons, ih, lastMatchValue_cons]
      cases hrest : lastMatchValue matchLine rest c with
      | some v => rfl
      | none =>
          cases hline : matchLine line with
          | none => rfl
          | some cv =>
              show dlookup (dictSet d cv.1 cv.2) c =
                (match (if cv.1 = c then some cv.2 else none : Option ℚ) with
                 | some v => some v
                 | none => dlookup d c)
              by_cases hc : cv.1 = c
              · rw [if_pos hc, ← hc]
                exact dlookup_dictSet_self d cv.1 cv.2
              · rw [if_neg hc]
                exact dlookup_dictSet_ne d (fun h => hc h.symm) cv.2

theorem nodup_keys_baseline_fold (matchLine : String → Option (String × ℚ)) :
    ∀ (ls : List String) (d : List (String × ℚ)), (d.map Prod.fst).Nodup →
      ((ls.foldl (fun d line =>
        match matchLine line with
        | some cv => dictSet d cv.1 cv.2
        | none => d) d).map Prod.fst).Nodup := by
  intro ls
  induction ls with
  | nil => intro d h; exact h
  | cons line rest ih =>
      intro d h
      rw [List.foldl_cons]
      cases hline : matchLine line with
      | none => exact ih d h
      | some cv => exact ih _ (nodup_keys_dictSet d cv.1 cv.2 h)

theorem dlookup_outList_none {res : List (String × ℚ)} {c : String}
    (h : dlookup res c = none) :
    ∀ ks : List String,
      dlookup (ks.filterMap (fun k => (dlookup res k).map (fun v => (k, v)))) c = none := by
  intro ks
  induction ks with
  | nil => rfl
  | cons k ks' ih =>
      rw [List.filterMap_cons]
      cases hk : dlookup res k with
      | none => simpa using ih
      | some w =>
          simp only [Option.map_some']
          by_cases hkc : k = c
          · rw [hkc] at hk
            rw [hk] at h
            exact absurd h (by simp)
          · rw [dlookup_cons_ne hkc]
            exact ih

theorem dlookup_outList_mem {res : List (String × ℚ)} {c : String} :
    ∀ ks : List String, c ∈ ks →
      dlookup (ks.filterMap (fun k => (dlookup res k).map (fun v => (k, v)))) c =
        dlookup res c := by
  intro ks
  induction ks with
  | nil => intro h; exact absurd h (by simp)
  | cons k ks' ih =>
      intro hmem
      rw [List.filterMap_cons]
      by_cases hkc : k = c
      · subst hkc
        cases hk : dlookup res k with
        | none =>
            simp only [Option.map_none']
            exact dlookup_outList_none hk ks'
        | some w =>
            simp only [Option.map_some']
            rw [dlookup_cons_eq rfl]
      · have hmem' : c ∈ ks' := by
          rcases List.mem_cons.mp hmem with hc | hc
          · exact absurd hc.symm hkc
          · exact hc
        cases hk : dlookup res k with
        | none =>
            simp only [Option.map_none']
            exact ih hmem'
        | some w =>
            simp only [Option.map_some']
            rw [dlookup_cons_ne hkc]
            exact ih hmem'

theorem keys_outList (res : List (String × ℚ)) :
    ∀ ks : List String,
      (ks.filterMap (fun k => (dlookup res k).map (fun v => (k, v)))).map Prod.fst =
        ks.filter (fun k => (dlookup res k).isSome) := by
  intro ks
  induction ks with
  | nil => rfl
  | cons k ks' ih =>
      rw [List.filterMap_cons, List.filter_cons]
      cases hk : dlookup res k with
      | none => simpa using ih
      | some w => simpa using ih

/-! ## Helper lemmas: the strict loader -/

theorem loadRow_ok_solve {r : Row} {b : BenchmarkResult} (h : loadRow r = .ok b) :
    getFloatStrict r "solve_time_ms" = .ok b.solve_time_ms := by
  unfold loadRow at h
  obtain ⟨cn, _, h⟩ := except_bind_ok h
  obtain ⟨lt, _, h⟩ := except_bind_ok h
  obtain ⟨st, hst, h⟩ := except_bind_ok h
  obtain ⟨tt, _, h⟩ := except_bind_ok h
  obtain ⟨cv, _, h⟩ := except_bind_ok h
  obtain ⟨it, _, h⟩ := except_bind_ok h
  obtain ⟨nb, _, h⟩ := except_bind_ok h
  obtain ⟨nbr, _, h⟩ := except_bind_ok h
  obtain ⟨ng, _, h⟩ := except_bind_ok h
  obtain ⟨ov, _, h⟩ := except_bind_ok h
  obtain ⟨bo, _, h⟩ := except_bind_ok h
  obtain ⟨ga, _, h⟩ := except_bind_ok h
  obtain ⟨gr, _, h⟩ := except_bind_ok h
  obtain ⟨vm, _, h⟩ := except_bind_ok h
  obtain ⟨gp, _, h⟩ := except_bind_ok h
  obtain ⟨bf, _, h⟩ := except_bind_ok h
  have hb : b = ⟨cn, lt, st, tt, cv, it, nb, nbr, ng, ov, bo, ga, gr, vm, gp, bf⟩ := by
    simpa using h.symm
  rw [hb]
  exact hst

theorem pyFloatCast_some_none {s : String} (hp : pyFloat? s = none) :
    pyFloatCast (some s) = .error .valueError := by
  simp only [pyFloatCast, hp]

theorem pyIntCast_some_none {s : String} (hp : pyInt? s = none) :
    pyIntCast (some s) = .error .valueError := by
  simp only [pyIntCast, hp]

theorem getIntStrict_error {r : Row} {s : String}
    (hc : rlookup r "num_buses" = some (some s)) (hp : pyInt? s = none) :
    getIntStrict r "num_buses" = .error .valueError := by
  have hraw : getRaw r "num_buses" = .ok (some s) := by
    unfold getRaw
    rw [hc]
  unfold getIntStrict
  rw [hraw, ok_bind]
  exact pyIntCast_some_none hp

theorem loadRow_error_of_bad_solve {r : Row} {s : String}
    (hc : rlookup r "solve_time_ms" = some (some s)) (hp : pyFloat? s = none) :
    ∀ b, loadRow r ≠ .ok b := by
  intro b hok
  have hs := loadRow_ok_solve hok
  unfold getFloatStrict getRaw at hs
  rw [hc] at hs
  simp only [ok_bind] at hs
  rw [pyFloatCast_some_none hp] at hs
  exact absurd hs (by simp)

theorem load_results_error_of_bad_solve {rows : List Row} {r : Row} {s : String}
    (hmem : r ∈ rows) (hc : rlookup r "solve_time_ms" = some (some s))
    (hp : pyFloat? s = none) :
    ∃ e, load_results rows = .error e :=
  mapE_error_of_mem hmem (loadRow_error_of_bad_solve hc hp)

/-! ## Helper lemmas: `analyze_method` -/

theorem analyze_method_eq (name : String) (results : List BenchmarkResult)
    (h : results ≠ []) :
    analyze_method name results = some
      { method := name
        total_cases := results.length
        converged := (results.filter (·.converged)).length
        convergence_rate :=
          ((results.filter (·.converged)).length : ℚ) / results.length * 100
        solve_time_mean_ms :=
          if results.filter (·.converged) = [] then none
          else some (listMean ((results.filter (·.converged)).map (·.solve_time_ms)))
        solve_time_median_ms :=
          if results.filter (·.converged) = [] then none
          else pyStatsMedian ((results.filter (·.converged)).map (·.solve_time_ms))
        solve_time_max_ms :=
          if results.filter (·.converged) = [] then none
          else ((results.filter (·.converged)).map (·.solve_time_ms)).max?
        iterations_mean :=
          if results.filter (·.converged) = [] then none
          else some (listMean ((results.filter (·.converged)).map
            (fun r => (r.iterations : ℚ))))
        objective_gap_mean_pct :=
          if (results.filter (·.converged)).filter
              (fun r => decide (0 < r.baseline_objective)) = [] then none
          else some (listMean (((results.filter (·.converged)).filter
            (fun r => decide (0 < r.baseline_objective))).map
            (fun r => r.objective_gap_rel * 100)))
        objective_gap_median_pct :=
          if (results.filter (·.converged)).filter
              (fun r => decide (0 < r.baseline_objective)) = [] then none
          else pyStatsMedian (((results.filter (·.converged)).filter
            (fun r => decide (0 < r.baseline_objective))).map
            (fun r => r.objective_gap_rel * 100))
        objective_gap_max_pct :=
          if (results.filter (·.converged)).filter
              (fun r => decide (0 < r.baseline_objective)) = [] then none
          else (((results.filter (·.converged)).filter
            (fun r => decide (0 < r.baseline_objective))).map
            (fun r => r.objective_gap_rel * 100)).max?
        objective_gap_min_pct :=
          if (results.filter (·.converged)).filter
              (fun r => decide (0 < r.baseline_objective)) = [] then none
          else (((results.filter (·.converged)).filter
            (fun r => decide (0 < r.baseline_objective))).map
            (fun r => r.objective_gap_rel * 100)).min?
        vm_violation_max_pu :=
          (((results.filter (·.converged)).map (·.max_vm_violation_pu)).max?).getD 0
        gen_violation_max_mw :=
          (((results.filter (·.converged)).map (·.max_gen_p_violation_mw)).max?).getD 0
        branch_violation_max_mva :=
          (((results.filter (·.converged)).map
            (·.max_branch_flow_violation_mva)).max?).getD 0
        cases_with_vm_violation :=
          (((results.filter (·.converged)).map (·.max_vm_violation_pu)).filter
            (fun v => decide ((1 : ℚ) / 1000000 < v))).length
        cases_with_branch_violation :=
          (((results.filter (·.converged)).map
            (·.max_branch_flow_violation_mva)).filter
            (fun v => decide ((1 : ℚ) / 1000 < v))).length } := by
  unfold analyze_method
  rw [if_neg h]

theorem analyze_method_nil (name : String) : analyze_method name [] = none := rfl

theorem filter_map_length {α β : Type} (l : List α) (f : α → β) (p : β → Bool) :
    ((l.map f).filter p).length = (l.filter (fun a => p (f a))).length := by
  induction l with
  | nil => rfl
  | cons x xs ih =>
      rw [List.map_cons, List.filter_cons, List.filter_cons]
      cases hp : p (f x) <;> simp [ih]

/-! ## Helper lemmas: percentile indices and size buckets -/

theorem idx_p10 (n : ℕ) : n * 10 / 100 = n / 10 := by omega

theorem idx_p90 (n : ℕ) : n * 90 / 100 = 9 * n / 10 := by omega

theorem idx_p50 (n : ℕ) : n * 50 / 100 = n / 2 := by omega

theorem bucketKey_eq_small (b : ℤ) : bucketKey b = "small (<500 buses)" ↔ b < 500 := by
  unfold bucketKey
  split_ifs with h1 h2 <;> simp_all

theorem bucketKey_eq_medium (b : ℤ) :
    bucketKey b = "medium (500-2000 buses)" ↔ 500 ≤ b ∧ b < 2000 := by
  unfold bucketKey
  split_ifs with h1 h2 <;> simp_all

theorem bucketKey_eq_large (b : ℤ) : bucketKey b = "large (>2000 buses)" ↔ 2000 ≤ b := by
  unfold bucketKey
  split_ifs with h1 h2 <;> simp_all
  omega

theorem three_filter_length {α : Type} (p q r : α → Bool) (l : List α)
    (h : ∀ a ∈ l, (p a = true ∧ q a = false ∧ r a = false) ∨
      (p a = false ∧ q a = true ∧ r a = false) ∨
      (p a = false ∧ q a = false ∧ r a = true)) :
    (l.filter p).length + (l.filter q).length + (l.filter r).length = l.length := by
  induction l with
  | nil => rfl
  | cons x xs ih =>
      have hx := h x (by simp)
      have hxs := ih (fun a ha => h a (by simp [ha]))
      rw [List.filter_cons, List.filter_cons, List.filter_cons]
      rcases hx with ⟨h1, h2, h3⟩ | ⟨h1, h2, h3⟩ | ⟨h1, h2, h3⟩ <;>
        simp [h1, h2, h3] <;> omega

theorem bucketLineSpec_some {cat : List (ℤ × Row)} {key : String} {e : String × ℕ × ℚ}
    (h : bucketLineSpec cat key = some e) : 0 < e.2.1 := by
  unfold bucketLineSpec at h
  by_cases hc : (cat.filter (fun p => decide (bucketKey p.1 = key))).map Prod.snd = []
  · rw [if_pos hc] at h
    exact absurd h (by simp)
  · rw [if_neg hc] at h
    have hx := Option.some.inj h
    rw [← hx]
    exact List.length_pos.mpr hc

theorem mem_bucketsSpec_pos {cat : List (ℤ × Row)} {e : String × ℕ × ℚ}
    (h : e ∈ bucketsSpec cat) : 0 < e.2.1 := by
  unfold bucketsSpec at h
  rcases List.mem_filterMap.mp h with ⟨o, ho, hoe⟩
  have hoe2 : o = some e := hoe
  subst hoe2
  rcases List.mem_cons.mp ho with h1 | ho
  · exact bucketLineSpec_some h1.symm
  rcases List.mem_cons.mp ho with h2 | ho
  · exact bucketLineSpec_some h2.symm
  rcases List.mem_cons.mp ho with h3 | ho
  · exact bucketLineSpec_some h3.symm
  · exact absurd ho (by simp)

theorem filterMap_three_sum {α : Type} (f : α → ℕ) (o1 o2 o3 : Option α) :
    ((List.filterMap id [o1, o2, o3]).map f).sum =
      (o1.map f).getD 0 + ((o2.map f).getD 0 + (o3.map f).getD 0) := by
  rcases o1 with _ | a <;> rcases o2 with _ | b <;> rcases o3 with _ | c <;> simp

theorem bucketLineSpec_count (cat : List (ℤ × Row)) (key : String) :
    ((bucketLineSpec cat key).map (fun e => e.2.1)).getD 0 =
      (cat.filter (fun p => decide (bucketKey p.1 = key))).length := by
  unfold bucketLineSpec
  by_cases hc : (cat.filter (fun p => decide (bucketKey p.1 = key))).map Prod.snd = []
  · rw [if_pos hc]
    have hfil : cat.filter (fun p => decide (bucketKey p.1 = key)) = [] := by
      simpa using hc
    simp [hfil]
  · rw [if_neg hc]
    simp

theorem bucketsSpec_sum (cat : List (ℤ × Row)) :
    ((bucketsSpec cat).map (fun e => e.2.1)).sum =
      (cat.filter (fun p => decide (bucketKey p.1 = "large (>2000 buses)"))).length +
        (cat.filter (fun p => decide (bucketKey p.1 = "medium (500-2000 buses)"))).length +
        (cat.filter (fun p => decide (bucketKey p.1 = "small (<500 buses)"))).length := by
  unfold bucketsSpec
  rw [filterMap_three_sum, bucketLineSpec_count, bucketLineSpec_count, bucketLineSpec_count]
  omega

theorem cat_filter_partition (cat : List (ℤ × Row)) :
    (cat.filter (fun p => decide (bucketKey p.1 = "large (>2000 buses)"))).length +
      (cat.filter (fun p => decide (bucketKey p.1 = "medium (500-2000 buses)"))).length +
      (cat.filter (fun p => decide (bucketKey p.1 = "small (<500 buses)"))).length =
    cat.length := by
  refine three_filter_length _ _ _ cat (fun a _ => ?_)
  rcases lt_trichotomy a.1 500 with hlt | heq | hgt
  · refine Or.inr (Or.inr ?_)
    refine ⟨?_, ?_, ?_⟩ <;> simp [bucketKey_eq_small, bucketKey_eq_medium,
      bucketKey_eq_large] <;> omega
  · by_cases hm : a.1 < 2000
    · refine Or.inr (Or.inl ?_)
      refine ⟨?_, ?_, ?_⟩ <;> simp [bucketKey_eq_small, bucketKey_eq_medium,
        bucketKey_eq_large] <;> omega
    · refine Or.inl ?_
      refine ⟨?_, ?_, ?_⟩ <;> simp [bucketKey_eq_small, bucketKey_eq_medium,
        bucketKey_eq_large] <;> omega
  · by_cases hm : a.1 < 2000
    · refine Or.inr (Or.inl ?_)
      refine ⟨?_, ?_, ?_⟩ <;> simp [bucketKey_eq_small, bucketKey_eq_medium,
        bucketKey_eq_large] <;> omega
    · refine Or.inl ?_
      refine ⟨?_, ?_, ?_⟩ <;> simp [bucketKey_eq_small, bucketKey_eq_medium,
        bucketKey_eq_large] <;> omega

/-! ## Helper lemmas: driver missing-file behaviour -/

theorem analyze_pglib_driver_skip {files : String → Option (List Row)}
    (h : files "pglib_full.csv" = none) : analyze_pglib_driver files = .ok none := by
  unfold analyze_pglib_driver
  rw [h]

theorem analyze_opfdata_driver_skip {files : String → Option (List Row)}
    (h : files "opfdata_case118.csv" = none) : analyze_opfdata_driver files = .ok none := by
  unfold analyze_opfdata_driver
  rw [h]

theorem mainAllStats_skip {files : String → Option (List Row)}
    (h : ∀ nm, files nm = none) : mainAllStats files = .ok [] := by
  unfold mainAllStats
  simp [List.foldlM, h]

/-! ## Median and percentile formulas -/

theorem specMedian_eq {seq : List ℚ} (h : seq ≠ []) :
    specMedian seq = some ((pySorted seq).getD (seq.length / 2) 0) := by
  unfold specMedian
  refine get?_eq_some_getD ?_
  rw [pySorted_length]
  exact Nat.div_lt_self (length_pos_of_ne_nil h) (by norm_num)

theorem pySorted_ne_nil {seq : List ℚ} (h : seq ≠ []) : pySorted seq ≠ [] :=
  fun hc => h (pySorted_eq_nil_iff.mp hc)

theorem specPercentile_50_eq_median (seq : List ℚ) :
    specPercentile seq 50 = specMedian seq := by
  unfold specPercentile specMedian
  rw [idx_p50]

/-! ## Claim theorems -/

/-- Claim C1, counterexample: the multi-method comparison reports the
interpolated `statistics.median` — for converged solve times 10 and 30 it
reports 20, not the upper median `sorted(seq)[len(seq)//2] = 30`. -/
theorem C1_counterexample :
    (analyze_method "AC-OPF" [sampleResult 10 0 1 1 0 true,
      sampleResult 30 0 1 1 0 true]).map (fun s => s.solve_time_median_ms) =
        some (some 20) ∧
    specMedian [10, 30] = some 30 ∧ (20 : ℚ) ≠ 30 := by
  refine ⟨by with_unfolding_all decide, by with_unfolding_all decide, by norm_num⟩

/-- Claim C1 (amended): every median computed by the benchmark analysis script
(`medianOfSorted`, applied to the sorted sequence) equals the spec formula
`sorted(seq)[len(seq)//2]`; the multi-method comparison instead uses
`statistics.median`, which agrees with that formula for odd-length sequences
and interpolates the two middle elements for even-length sequences. -/
theorem C1_median_upper :
    (∀ seq : List ℚ, seq ≠ [] →
      medianOfSorted (pySorted seq) = .ok ((pySorted seq).getD (seq.length / 2) 0) ∧
      specMedian seq = some ((pySorted seq).getD (seq.length / 2) 0)) ∧
    (∀ seq : List ℚ, seq.length % 2 = 1 → pyStatsMedian seq = specMedian seq) ∧
    (∀ seq : List ℚ, seq ≠ [] → seq.length % 2 = 0 →
      pyStatsMedian seq = some (((pySorted seq).getD (seq.length / 2 - 1) 0 +
        (pySorted seq).getD (seq.length / 2) 0) / 2)) := by
  refine ⟨fun seq h => ⟨?_, specMedian_eq h⟩, fun seq h => ?_, fun seq hne h => ?_⟩
  · rw [medianOfSorted_ok (pySorted_ne_nil h), pySorted_length]
  · have h0 : seq.length ≠ 0 := by omega
    have hne : seq ≠ [] := fun hc => h0 (by rw [hc]; rfl)
    simp only [pyStatsMedian]
    rw [if_neg h0, if_pos h, specMedian_eq hne]
  · have h0 : seq.length ≠ 0 := fun hc => hne (List.length_eq_zero.mp hc)
    simp only [pyStatsMedian]
    rw [if_neg h0, if_neg (by omega)]

/-- Claim C1, witness at concrete inputs. -/
theorem C1_median_upper_witness :
    medianOfSorted (pySorted [10, 30]) = .ok 30 ∧
    pyStatsMedian [1, 2, 3] = specMedian [1, 2, 3] ∧
    pyStatsMedian [10, 30] = some 20 := by
  refine ⟨(C1_median_upper.1 [(10 : ℚ), 30] (by decide)).1.trans
      (by with_unfolding_all decide),
    C1_median_upper.2.1 [(1 : ℚ), 2, 3] (by decide),
    (C1_median_upper.2.2 [(10 : ℚ), 30] (by decide) (by decide)).trans
      (by with_unfolding_all decide)⟩

/-- Claim C2, counterexample: the multi-method loader `load_results` uses bare
`float(...)`, so a row whose `solve_time_ms` cell is `"abc"` raises
`ValueError` instead of producing a record with that field 0.0. -/
theorem C2_counterexample :
    load_results [fullRow (some "abc")] = .error .valueError := by
  with_unfolding_all decide

/-- Claim C2 (amended): in the benchmark analysis script every float-valued
cell is converted with `safe_float`, which coerces an unparsable or absent
(`None`) cell value to 0.0 without raising; however the size-bucketing read
`int(r['num_buses'])` of the full-network suite is a bare strict cast, so an
unparsable `num_buses` cell makes that suite raise, and the multi-method
loader `load_results` likewise applies bare `float(...)`/`int(...)`
conversions and raises on a row whose numeric cell does not parse, instead of
yielding a record with that field 0.0. -/
theorem C2_safe_float_loaders :
    (safe_float none = 0) ∧
    (∀ s : String, pyFloat? s = none → safe_float (some s) = 0) ∧
    (∀ (r : Row) (k : String), rlookup r k = some none →
      getFloatD r k = 0 ∧ getFloatIdx r k = .ok 0) ∧
    (∀ (r : Row) (k : String), rlookup r k = none → getFloatD r k = 0) ∧
    (∀ (data conv : List Row) (raw : List ℚ) (r : Row) (s : String),
      filterE getConverged data = .ok conv →
      mapE (fun r => getFloatIdx r "solve_time_ms") conv = .ok raw →
      data ≠ [] → r ∈ conv →
      rlookup r "num_buses" = some (some s) → pyInt? s = none →
      ∃ e, analyze_pglib data = .error e) ∧
    (∀ (rows : List Row) (r : Row) (s : String), r ∈ rows →
      rlookup r "solve_time_ms" = some (some s) → pyFloat? s = none →
      ∃ e, load_results rows = .error e) := by
  refine ⟨rfl, fun s hp => ?_, fun r k h => ⟨?_, ?_⟩, fun r k h => ?_,
    fun data conv raw r s h1 h2 h4 hmem hcell hp => ?_,
    fun rows r s hmem hc hp => load_results_error_of_bad_solve hmem hc hp⟩
  · simp [safe_float, hp]
  · unfold getFloatD
    rw [h]
    rfl
  · unfold getFloatIdx getRaw
    rw [h]
    rfl
  · unfold getFloatD
    rw [h]
  · have hlen : data.length ≠ 0 := fun hc => h4 (List.length_eq_zero.mp hc)
    have hden : ((data.length : ℚ)) ≠ 0 := Nat.cast_ne_zero.mpr hlen
    have hbad : ∀ b : ℤ × Row, (getIntStrict r "num_buses" >>=
        fun bb => (Except.ok (bb, r) : Except PyErr (ℤ × Row))) ≠ .ok b := by
      intro b hb
      rw [getIntStrict_error hcell hp, error_bind] at hb
      exact absurd hb (by simp)
    obtain ⟨e0, he⟩ := @mapE_error_of_mem Row (ℤ × Row)
      (fun r => getIntStrict r "num_buses" >>=
        fun bb => (Except.ok (bb, r) : Except PyErr (ℤ × Row)))
      conv r hmem hbad
    refine ⟨e0, ?_⟩
    unfold analyze_pglib
    rw [h1, ok_bind, pyDiv_ok hden, ok_bind, h2, ok_bind]
    by_cases hs : pySorted raw = [] <;> by_cases hg : pglibGapListOf conv = [] <;>
      simp [he, hs, hg, medianOfSorted_ok, pyIndexInt_zero, pyIndexInt_neg_one]

/-- Claim C2, witness at concrete inputs. -/
theorem C2_safe_float_loaders_witness :
    safe_float (some "xyz") = 0 ∧
    (∃ e, analyze_pglib [badBusRow] = .error e) ∧
    (∃ e, load_results [fullRow (some "xyz")] = .error e) := by
  refine ⟨C2_safe_float_loaders.2.1 "xyz" (by with_unfolding_all decide),
    C2_safe_float_loaders.2.2.2.2.1 [badBusRow] [badBusRow] [5] badBusRow "abc"
      (by with_unfolding_all rfl) (by with_unfolding_all rfl) (by simp) (by simp)
      (by with_unfolding_all rfl) (by with_unfolding_all decide),
    C2_safe_float_loaders.2.2.2.2.2 [fullRow (some "xyz")] (fullRow (some "xyz")) "xyz"
      (by simp) (by with_unfolding_all decide) (by with_unfolding_all decide)⟩

/-- Claim C3, counterexample: an existing input file with a header and zero
data rows is not skipped — both the full-network suite and the single-case AC
suite raise `ZeroDivisionError` at `100*len(converged)/total`. -/
theorem C3_counterexample :
    analyze_pglib [] = .error .zeroDivisionError ∧
    analyze_opfdata [] = .error .zeroDivisionError := by
  exact ⟨by with_unfolding_all decide, by with_unfolding_all decide⟩

/-- Claim C3 (amended): the convergence rate always equals
`converged_count/total_count*100` over the unfiltered record set; a missing
input file makes a suite skip, and the contingency-sweep driver and the
multi-method analyzer skip when the total is zero, but the full-network and
single-case AC suites divide by zero on an existing file with zero data rows
(see the counterexample) rather than skipping. -/
theorem C3_convergence_rate :
    (∀ (data conv : List Row) (raw : List ℚ) (cat : List (ℤ × Row)),
      filterE getConverged data = .ok conv →
      mapE (fun r => getFloatIdx r "solve_time_ms") conv = .ok raw →
      mapE (fun r => do
        let b ← getIntStrict r "num_buses"
        pure (b, r)) conv = .ok cat →
      data ≠ [] →
      ∃ rep : PglibReport, analyze_pglib data = .ok rep ∧ rep.total = data.length ∧
        rep.nConv = conv.length ∧
        rep.ratePct = 100 * conv.length / data.length) ∧
    (∀ (data conv : List Row) (raw : List ℚ),
      filterE getConverged data = .ok conv →
      mapE (fun r => getFloatIdx r "solve_time_ms") conv = .ok raw →
      data ≠ [] →
      ∃ rep : OpfReport, analyze_opfdata data = .ok rep ∧ rep.total = data.length ∧
        rep.nConv = conv.length ∧
        rep.ratePct = 100 * conv.length / data.length) ∧
    (∀ nm, analyze_method nm [] = none) ∧
    (∀ (nm : String) (rs : List BenchmarkResult), rs ≠ [] →
      ∃ s, analyze_method nm rs = some s ∧ s.total_cases = rs.length ∧
        s.converged = (rs.filter (·.converged)).length ∧
        s.convergence_rate = ((rs.filter (·.converged)).length : ℚ) / rs.length * 100) ∧
    (∀ files : String → Option (List Row),
      (∀ nm, files nm = none ∨ files nm = some []) →
      analyze_pfdelta files = .ok ⟨[], none, none⟩) := by
  refine ⟨fun data conv raw cat h1 h2 h3 h4 => ?_,
    fun data conv raw h1 h2 h4 => ?_,
    fun nm => analyze_method_nil nm,
    fun nm rs h => ?_,
    fun files h => analyze_pfdelta_skip h⟩
  · exact ⟨_, analyze_pglib_spec h1 h2 h3 h4, rfl, rfl, rfl⟩
  · exact ⟨_, analyze_opfdata_spec h1 h2 h4, rfl, rfl, rfl⟩
  · exact ⟨_, analyze_method_eq nm rs h, rfl, rfl, rfl⟩

/-- Claim C3, witness at concrete inputs. -/
theorem C3_convergence_rate_witness :
    (∃ rep : PglibReport, analyze_pglib [rowA] = .ok rep ∧ rep.total = 1 ∧
      rep.nConv = 1 ∧ rep.ratePct = 100) ∧
    (∃ s, analyze_method "AC-OPF" [sampleResult 1 0 1 1 0 true] = some s ∧
      s.convergence_rate = 100) ∧
    analyze_pfdelta emptyFiles = .ok ⟨[], none, none⟩ := by
  refine ⟨?_, ?_, (C3_convergence_rate.2.2.2.2 emptyFiles (fun nm => Or.inl rfl))⟩
  · obtain ⟨rep, h1, h2, h3, h4⟩ := C3_convergence_rate.1 [rowA] [rowA] [5] [(100, rowA)]
      (by with_unfolding_all decide) (by with_unfolding_all decide)
      (by with_unfolding_all decide) (by decide)
    refine ⟨rep, h1, h2, h3, ?_⟩
    rw [h4]
    norm_num
  · obtain ⟨s, h1, _, _, h4⟩ := C3_convergence_rate.2.2.2.1 "AC-OPF"
      [sampleResult 1 0 1 1 0 true] (by decide)
    refine ⟨s, h1, ?_⟩
    rw [h4]
    with_unfolding_all decide

/-- Claim C4, counterexample: with an existing full-network file whose rows
contain no converged record, `generate_latex_table` raises `IndexError` at
`sorted(solve_times)[len(solve_times)//2]` instead of printing a placeholder. -/
theorem C4_counterexample :
    latex_pglib_line [noConvRow] = .error .indexError := by
  with_unfolding_all decide

/-- Claim C4 (amended): in the multi-method analysis, statistics over an empty
filtered subset are reported as absent (`dict` keys missing) and both
renderers substitute the placeholder 0 without raising; the benchmark script's
LaTeX table generation, however, raises `IndexError` whenever the converged
subset is empty. -/
theorem C4_empty_subset :
    (∀ (nm : String) (rs : List BenchmarkResult), rs ≠ [] →
      rs.filter (·.converged) = [] →
      ∃ s, analyze_method nm rs = some s ∧
        s.solve_time_mean_ms = none ∧ s.solve_time_median_ms = none ∧
        s.solve_time_max_ms = none ∧ s.iterations_mean = none ∧
        s.objective_gap_mean_pct = none ∧ s.objective_gap_median_pct = none ∧
        s.objective_gap_max_pct = none ∧ s.objective_gap_min_pct = none ∧
        s.vm_violation_max_pu = 0 ∧ s.gen_violation_max_mw = 0 ∧
        s.branch_violation_max_mva = 0 ∧ s.cases_with_vm_violation = 0 ∧
        s.cases_with_branch_violation = 0 ∧
        latex_row s = (nm, 0, rs.length, 0, 0, 0, 0) ∧
        summary_row s = (nm, 0, rs.length, 0, 0, 0, 0, 0)) ∧
    (∀ data : List Row, filterE getConverged data = .ok [] →
      latex_pglib_line data = .error .indexError) := by
  constructor
  · intro nm rs hne hconv
    refine ⟨_, analyze_method_eq nm rs hne, ?_⟩
    rw [hconv]
    simp [latex_row, summary_row, listMean]
  · intro data h1
    unfold latex_pglib_line
    rw [h1, ok_bind, mapE_nil, ok_bind]
    rfl

/-- Claim C4, witness at concrete inputs. -/
theorem C4_empty_subset_witness :
    (∃ s, analyze_method "SOCP" [sampleResult 1 0 1 1 0 false] = some s ∧
      s.solve_time_mean_ms = none ∧ s.objective_gap_mean_pct = none ∧
      latex_row s = ("SOCP", 0, 1, 0, 0, 0, 0)) ∧
    latex_pglib_line [noConvRow, noConvRow] = .error .indexError := by
  constructor
  · obtain ⟨s, h1, h2⟩ := C4_empty_subset.1 "SOCP" [sampleResult 1 0 1 1 0 false]
      (by decide) (by decide)
    exact ⟨s, h1, h2.1, h2.2.2.2.2.1, h2.2.2.2.2.2.2.2.2.2.2.2.2.2.1⟩
  · exact C4_empty_subset.2 [noConvRow, noConvRow] (by with_unfolding_all decide)

/-- Claim C5, counterexample: a converged full-network record with
`baseline_objective = -5 ≤ 0` but `objective_value = 10 > 0` is *included* in
the gap statistics (the filter is on `objective_value`, not on
`baseline_objective`): the suite reports gap statistics `some (10,10,10,10)`
instead of excluding the record. -/
theorem C5_counterexample :
    analyze_pglib [rowA] = .ok ⟨1, 1, 100, some (5, 5, 5, 5),
      some (10, 10, 10, 10), [("small (<500 buses)", 1, 5)]⟩ ∧
    getFloatD rowA "baseline_objective" ≤ 0 := by
  exact ⟨by with_unfolding_all decide, by with_unfolding_all decide⟩

/-- Claim C5 (amended): the full-network suite computes gap statistics over
the converged records whose `objective_value` is positive (records with
nonpositive `baseline_objective` are not excluded); the single-case AC suite
computes them over all converged records with no validity filter; the
contingency-sweep suite computes no gap metrics at all — its report is
unchanged when every `objective_gap_rel` cell is overwritten. -/
theorem C5_gap_selection :
    (∀ (conv : List Row) (x : ℚ), x ∈ pglibGapListOf conv ↔
      ∃ r ∈ conv, 0 < getFloatD r "objective_value" ∧
        x = getFloatD r "objective_gap_rel") ∧
    (∀ (conv : List Row) (x : ℚ), x ∈ opfGapListOf conv ↔
      ∃ r ∈ conv, x = getFloatD r "objective_gap_rel") ∧
    (∀ (files : String → Option (List Row)) (v : Option String),
      analyze_pfdelta (fun nm => (files nm).map
        (List.map (fun r => setField r "objective_gap_rel" v))) =
      analyze_pfdelta files) := by
  refine ⟨fun conv x => ?_, fun conv x => ?_,
    fun files v => analyze_pfdelta_setGap files v⟩
  · unfold pglibGapListOf
    rw [pySorted_mem]
    constructor
    · intro hx
      obtain ⟨r, hr, hrx⟩ := List.mem_map.mp hx
      have hf := List.mem_filter.mp hr
      exact ⟨r, hf.1, by simpa using hf.2, hrx.symm⟩
    · rintro ⟨r, hr, hpos, hx⟩
      exact List.mem_map.mpr ⟨r, List.mem_filter.mpr ⟨hr, by simpa using hpos⟩, hx.symm⟩
  · unfold opfGapListOf
    rw [pySorted_mem]
    constructor
    · intro hx
      obtain ⟨r, hr, hrx⟩ := List.mem_map.mp hx
      exact ⟨r, hr, hrx.symm⟩
    · rintro ⟨r, hr, hx⟩
      exact List.mem_map.mpr ⟨r, hr, hx.symm⟩

/-- Claim C5, witness at concrete inputs. -/
theorem C5_gap_selection_witness :
    ((1 : ℚ) / 10) ∈ pglibGapListOf [rowA] ∧
    ((1 : ℚ) / 5) ∈ opfGapListOf [rowB] ∧
    analyze_pfdelta (fun nm => (pfdeltaScenario nm).map
      (List.map (fun r => setField r "objective_gap_rel" (some "9.9")))) =
    analyze_pfdelta pfdeltaScenario := by
  refine ⟨(C5_gap_selection.1 [rowA] (1 / 10)).mpr
      ⟨rowA, by simp, by with_unfolding_all decide, by with_unfolding_all decide⟩,
    (C5_gap_selection.2.1 [rowB] (1 / 5)).mpr
      ⟨rowB, by simp, by with_unfolding_all decide⟩,
    C5_gap_selection.2.2 pfdeltaScenario (some "9.9")⟩

/-- Claim C6, counterexample: there is no nonempty even-length sequence on
which the non-interpolating 50th percentile differs from the non-interpolating
median — `sorted(seq)[floor(len*50/100)]` and `sorted(seq)[len//2]` are the
same element, so "need not equal the median" is false under the program's
rule. -/
theorem C6_counterexample :
    ¬ ∃ seq : List ℚ, seq ≠ [] ∧ seq.length % 2 = 0 ∧
      specPercentile seq 50 ≠ specMedian seq := by
  rintro ⟨seq, -, -, hne⟩
  exact hne (specPercentile_50_eq_median seq)

/-- Claim C6 (amended): the reported P10 and P90 of the single-case AC suite
equal `sorted(seq)[floor(len(seq)*P/100)]` (the code's `len//10` and
`9*len//10` indices agree with the spec formula), and under this
non-interpolating rule `percentile(seq, 50)` always equals the median
`sorted(seq)[len(seq)//2]`, for every length. -/
theorem C6_percentile :
    (∀ seq : List ℚ, seq ≠ [] →
      p10OfSorted (pySorted seq) =
        .ok ((pySorted seq).getD (seq.length * 10 / 100) 0) ∧
      specPercentile seq 10 =
        some ((pySorted seq).getD (seq.length * 10 / 100) 0)) ∧
    (∀ seq : List ℚ, seq ≠ [] →
      p90OfSorted (pySorted seq) =
        .ok ((pySorted seq).getD (seq.length * 90 / 100) 0) ∧
      specPercentile seq 90 =
        some ((pySorted seq).getD (seq.length * 90 / 100) 0)) ∧
    (∀ seq : List ℚ, specPercentile seq 50 = specMedian seq) := by
  refine ⟨fun seq h => ⟨?_, ?_⟩, fun seq h => ⟨?_, ?_⟩,
    fun seq => specPercentile_50_eq_median seq⟩
  · rw [p10OfSorted_ok (pySorted_ne_nil h), pySorted_length, idx_p10]
  · exact get?_eq_some_getD (by
      rw [pySorted_length, idx_p10]
      exact Nat.div_lt_self (length_pos_of_ne_nil h) (by norm_num))
  · rw [p90OfSorted_ok (pySorted_ne_nil h), pySorted_length, idx_p90]
  · exact get?_eq_some_getD (by
      rw [pySorted_length, idx_p90]
      have h0 := length_pos_of_ne_nil h
      exact Nat.div_lt_of_lt_mul (by omega))

/-- Claim C6, witness at concrete inputs. -/
theorem C6_percentile_witness :
    p10OfSorted (pySorted [1, 2, 3, 4, 5, 6, 7, 8, 9, 10]) = .ok 2 ∧
    p90OfSorted (pySorted [1, 2, 3, 4, 5, 6, 7, 8, 9, 10]) = .ok 10 ∧
    specPercentile [1, 2] 50 = specMedian [1, 2] := by
  refine ⟨(C6_percentile.1 [(1 : ℚ), 2, 3, 4, 5, 6, 7, 8, 9, 10] (by decide)).1.trans
      (by with_unfolding_all decide),
    (C6_percentile.2.1 [(1 : ℚ), 2, 3, 4, 5, 6, 7, 8, 9, 10] (by decide)).1.trans
      (by with_unfolding_all decide),
    C6_percentile.2.2 [(1 : ℚ), 2]⟩

/-- Claim C7, counterexample: for converged records with voltage-magnitude
violations `[0, 1e-7, 2e-6, 1e-3]` and threshold `1e-6`, the reported count is
2 (both `2e-6` and `1e-3` strictly exceed `1e-6`), not 1. -/
theorem C7_counterexample :
    (analyze_method "AC-OPF" [sampleResult 1 0 0 1 0 true,
      sampleResult 1 (1 / 10000000) 0 1 0 true,
      sampleResult 1 (2 / 1000000) 0 1 0 true,
      sampleResult 1 (1 / 1000) 0 1 0 true]).map
        (fun s => s.cases_with_vm_violation) = some 2 ∧ (2 : ℕ) ≠ 1 := by
  exact ⟨by with_unfolding_all decide, by norm_num⟩

theorem count_filter_map {α : Type} (l : List α) (c : α → Bool) (f : α → ℚ)
    (p : ℚ → Bool) :
    (((l.filter c).map f).filter p).length =
      (l.filter (fun a => c a && p (f a))).length := by
  induction l with
  | nil => rfl
  | cons x xs ih =>
      cases hc : c x <;> cases hp : p (f x) <;>
        simp [List.filter_cons, hc, hp, ih]

/-- Claim C7 (amended): the violation counts are exactly the number of
converged records whose violation value strictly exceeds the fixed threshold
(`1e-6` p.u. for voltage magnitude, `1e-3` MVA for branch flow); however, for
vm values `[0, 1e-7, 2e-6, 1e-3]`, exactly *two* values (2e-6 and 1e-3)
exceed `1e-6` and are counted, not one. -/
theorem C7_violation_counts :
    (∀ (nm : String) (rs : List BenchmarkResult) (s : MethodStats),
      analyze_method nm rs = some s →
      s.cases_with_vm_violation = (rs.filter (fun r =>
        r.converged && decide ((1 : ℚ) / 1000000 < r.max_vm_violation_pu))).length ∧
      s.cases_with_branch_violation = (rs.filter (fun r =>
        r.converged && decide ((1 : ℚ) / 1000 <
          r.max_branch_flow_violation_mva))).length) ∧
    (([0, 1 / 10000000, 2 / 1000000, 1 / 1000] : List ℚ).filter
      (fun v => decide ((1 : ℚ) / 1000000 < v))).length = 2 := by
  constructor
  · intro nm rs s h
    by_cases hne : rs = []
    · rw [hne, analyze_method_nil] at h
      exact absurd h (by simp)
    · rw [analyze_method_eq nm rs hne] at h
      have hs := Option.some.inj h
      constructor
      · rw [← hs]
        exact count_filter_map rs (·.converged) (·.max_vm_violation_pu)
          (fun v => decide ((1 : ℚ) / 1000000 < v))
      · rw [← hs]
        exact count_filter_map rs (·.converged) (·.max_branch_flow_violation_mva)
          (fun v => decide ((1 : ℚ) / 1000 < v))
  · with_unfolding_all decide

/-- Claim C7, witness at a concrete input. -/
theorem C7_violation_counts_witness :
    ∃ s, analyze_method "AC-OPF" [sampleResult 1 (2 / 1000000) 0 1 0 true] = some s ∧
      s.cases_with_vm_violation = ([sampleResult 1 (2 / 1000000) 0 1 0 true].filter
        (fun r => r.converged &&
          decide ((1 : ℚ) / 1000000 < r.max_vm_violation_pu))).length := by
  cases hsm : analyze_method "AC-OPF" [sampleResult 1 (2 / 1000000) 0 1 0 true] with
  | none => exact absurd hsm (by with_unfolding_all decide)
  | some s => exact ⟨s, rfl, (C7_violation_counts.1 "AC-OPF" _ s hsm).1⟩

/-- Claim C8: size-bucketing partitions the converged records disjointly and
exhaustively by `num_buses` — the bucket key of every record satisfies exactly
one of the three range characterisations — and the emitted size-distribution
lines are exactly the nonempty buckets (every emitted count is positive and
the counts sum to the number of converged records). -/
theorem C8_bucket_partition :
    (∀ b : ℤ, (bucketKey b = "small (<500 buses)" ↔ b < 500) ∧
      (bucketKey b = "medium (500-2000 buses)" ↔ 500 ≤ b ∧ b < 2000) ∧
      (bucketKey b = "large (>2000 buses)" ↔ 2000 ≤ b)) ∧
    (∀ (data conv : List Row) (raw : List ℚ) (cat : List (ℤ × Row)),
      filterE getConverged data = .ok conv →
      mapE (fun r => getFloatIdx r "solve_time_ms") conv = .ok raw →
      mapE (fun r => do
        let b ← getIntStrict r "num_buses"
        pure (b, r)) conv = .ok cat →
      data ≠ [] →
      ∃ rep : PglibReport, analyze_pglib data = .ok rep ∧
        rep.buckets = bucketsSpec cat ∧
        (∀ e ∈ rep.buckets, 0 < e.2.1) ∧
        (rep.buckets.map (fun e => e.2.1)).sum = conv.length) := by
  constructor
  · intro b
    exact ⟨bucketKey_eq_small b, bucketKey_eq_medium b, bucketKey_eq_large b⟩
  · intro data conv raw cat h1 h2 h3 h4
    refine ⟨_, analyze_pglib_spec h1 h2 h3 h4, rfl, ?_, ?_⟩
    · intro e he
      exact mem_bucketsSpec_pos he
    · show ((bucketsSpec cat).map (fun e => e.2.1)).sum = conv.length
      rw [bucketsSpec_sum, cat_filter_partition]
      exact mapE_length h3


/-- Claim C8, witness at a concrete input with one record per bucket. -/
theorem C8_bucket_partition_witness :
    bucketKey 100 = "small (<500 buses)" ∧
    ∃ rep : PglibReport, analyze_pglib [rowA, rowB, rowC] = .ok rep ∧
      (∀ e ∈ rep.buckets, 0 < e.2.1) ∧
      (rep.buckets.map (fun e => e.2.1)).sum = 3 := by
  refine ⟨(C8_bucket_partition.1 100).1.mpr (by norm_num), ?_⟩
  obtain ⟨rep, ha, _, hc, hd⟩ := C8_bucket_partition.2 [rowA, rowB, rowC]
    [rowA, rowB, rowC] [5, 7, 9] [(100, rowA), (700, rowB), (3000, rowC)]
    (by with_unfolding_all rfl) (by with_unfolding_all rfl)
    (by with_unfolding_all rfl) (by simp)
  exact ⟨rep, ha, hc, hd⟩

/-- Claim C9: every driver skips a suite or case whose input file is absent
(with a notice, not an exception), continues with the rest, and the
contingency-sweep driver with only `case30`'s base file present (two converged
rows, 5.0 ms and 7.0 ms) reports `case30: 2/2 (100%), avg 6.0 ms` and the
overall total `2/2 (100%)` without raising. -/
theorem C9_missing_files :
    (∀ files : String → Option (List Row), files "pglib_full.csv" = none →
      analyze_pglib_driver files = .ok none) ∧
    (∀ files : String → Option (List Row), files "opfdata_case118.csv" = none →
      analyze_opfdata_driver files = .ok none) ∧
    (∀ files : String → Option (List Row), (∀ nm, files nm = none) →
      analyze_pfdelta files = .ok ⟨[], none, none⟩ ∧ mainAllStats files = .ok []) ∧
    analyze_pfdelta pfdeltaScenario =
      .ok ⟨[⟨"case30", 2, 2, 100, 6⟩], some (2, 2, 100), some (7, 6)⟩ := by
  refine ⟨fun files h => analyze_pglib_driver_skip h,
    fun files h => analyze_opfdata_driver_skip h,
    fun files h => ⟨analyze_pfdelta_skip (fun nm => Or.inl (h nm)), mainAllStats_skip h⟩,
    by with_unfolding_all decide⟩

/-- Claim C9, witness: an empty results directory. -/
theorem C9_missing_files_witness :
    analyze_pglib_driver emptyFiles = .ok none ∧
    analyze_opfdata_driver emptyFiles = .ok none ∧
    analyze_pfdelta emptyFiles = .ok ⟨[], none, none⟩ ∧
    mainAllStats emptyFiles = .ok [] := by
  refine ⟨C9_missing_files.1 emptyFiles rfl, C9_missing_files.2.1 emptyFiles rfl,
    (C9_missing_files.2.2.1 emptyFiles (fun nm => rfl)).1,
    (C9_missing_files.2.2.1 emptyFiles (fun nm => rfl)).2⟩

/-- Claim C10: the baseline extractor's output is sorted ascending by
`case_name` for every input (the keys of the emitted rows are sorted), and
the value emitted for a case is exactly the value captured from the last
input line matching that case — earlier matches are overwritten by the
dictionary assignment. -/
theorem C10_baseline_sorted_last_wins :
    ∀ (matchLine : String → Option (String × ℚ)) (ls : List String),
      List.Sorted (· ≤ ·) ((parse_baseline matchLine ls).map Prod.fst) ∧
      ∀ c : String, dlookup (parse_baseline matchLine ls) c =
        lastMatchValue matchLine ls c := by
  intro f ls
  unfold parse_baseline
  constructor
  · rw [keys_outList]
    exact (List.sorted_insertionSort _ _).filter _
  · intro c
    by_cases hmem : c ∈ List.insertionSort (· ≤ ·)
      ((ls.foldl (fun d line =>
        match f line with
        | some cv => dictSet d cv.1 cv.2
        | none => d) []).map Prod.fst)
    · rw [dlookup_outList_mem _ hmem, dlookup_baseline_fold]
      cases hlm : lastMatchValue f ls c <;> rfl
    · have hkeys : c ∉ (ls.foldl (fun d line =>
          match f line with
          | some cv => dictSet d cv.1 cv.2
          | none => d) []).map Prod.fst :=
        fun hc => hmem ((List.mem_insertionSort _).mpr hc)
      have hnone : dlookup (ls.foldl (fun d line =>
          match f line with
          | some cv => dictSet d cv.1 cv.2
          | none => d) []) c = none := by
        cases hdl : dlookup (ls.foldl (fun d line =>
            match f line with
            | some cv => dictSet d cv.1 cv.2
            | none => d) []) c with
        | none => rfl
        | some v =>
            exact absurd ((dlookup_isSome_iff _ c).mp (by rw [hdl]; rfl)) hkeys
      rw [dlookup_outList_none hnone]
      have hfold := dlookup_baseline_fold f ls [] c
      rw [hnone] at hfold
      cases hlm : lastMatchValue f ls c with
      | none => rfl
      | some v =>
          rw [hlm] at hfold
          exact absurd hfold.symm (by simp)
